import Mathlib

/-!
# MCP9808 temperature sensor on the TM4C123 I2C1 master

A shallow embedding of `I2C.c` (the byte-level bus driver) and of the
register transactions and the temperature decode of `TempSensor.c`.

The memory-mapped I2C1 registers are an explicit state, `Bus`:

* `I2C1_MSA_R` is ordinary read/write memory;
* `I2C1_MCS_R` is a control register when written and a status register
  when read.  Every read is a volatile access, so the device's answers are a
  script `mcsIn` of the values the successive reads deliver;
* `I2C1_MDR_R` is the data register: writes are logged, reads are answered
  from the script `mdrIn`;
* `log` lists every register write in program order.

A script that is used up stands for a bus that gives no further answer: the
call does not return (`none`).  In particular a busy-wait on a bus that stays
busy does not return.  `Send_Byte_script` and `Read_Byte_script` show that
every call that returns has read the statuses of one `Resp`, so the
theorems, stated over `Resp`, cover every bus on which the calls return.
-/

namespace MCP9808

/-! ## Bit masks of `tm4c123gh6pm.h` -/

/-- Modelled from the spec: the header `tm4c123gh6pm.h` is not among the
sources; status bit 0 of `I2C1_MCS_R`, controller busy. -/
def I2C_MCS_BUSY : Nat := 0x01

/-- Modelled from the spec: the header `tm4c123gh6pm.h` is not among the
sources; status bit 1 of `I2C1_MCS_R`, error on the last operation. -/
def I2C_MCS_ERROR : Nat := 0x02

/-- Modelled from the spec: the header `tm4c123gh6pm.h` is not among the
sources; status bit 2 of `I2C1_MCS_R`, address not acknowledged. -/
def I2C_MCS_ADRACK : Nat := 0x04

/-- Modelled from the spec: the header `tm4c123gh6pm.h` is not among the
sources; status bit 3 of `I2C1_MCS_R`, data not acknowledged. -/
def I2C_MCS_DATACK : Nat := 0x08

/-- Modelled from the spec: the header `tm4c123gh6pm.h` is not among the
sources; control bit 0 of `I2C1_MCS_R`, master enable. -/
def I2C_MCS_RUN : Nat := 0x01

/-- Modelled from the spec: the header `tm4c123gh6pm.h` is not among the
sources; control bit 1 of `I2C1_MCS_R`, generate START. -/
def I2C_MCS_START : Nat := 0x02

/-- Modelled from the spec: the header `tm4c123gh6pm.h` is not among the
sources; control bit 2 of `I2C1_MCS_R`, generate STOP. -/
def I2C_MCS_STOP : Nat := 0x04

/-- Modelled from the spec: the header `tm4c123gh6pm.h` is not among the
sources; control bit 3 of `I2C1_MCS_R`, data acknowledge enable. -/
def I2C_MCS_ACK : Nat := 0x08

/-- Address of the MCP9808 Configuration register (`CONFIG_R`). -/
def CONFIG_R : Nat := 0x01

/-- Address of the MCP9808 T_lower register (`T_LOWER_R`). -/
def T_LOWER_R : Nat := 0x03

/-! ## The register file -/

/-- One write to a register of the I2C1 master. -/
inductive Write where
  | msa (v : Nat)
  | mdr (v : Nat)
  | mcs (v : Nat)
deriving DecidableEq, Repr

/-- The I2C1 master as the driver sees it. -/
structure Bus where
  /-- Content of `I2C1_MSA_R`. -/
  msa : Nat
  /-- Values the coming reads of `I2C1_MCS_R` deliver. -/
  mcsIn : List Nat
  /-- Values the coming reads of `I2C1_MDR_R` deliver. -/
  mdrIn : List Nat
  /-- Register writes made so far, oldest first. -/
  log : List Write
deriving DecidableEq, Repr

/-- The values written to `I2C1_MCS_R`, in order. -/
def mcsWrites : List Write → List Nat
  | [] => []
  | Write.mcs v :: ws => v :: mcsWrites ws
  | _ :: ws => mcsWrites ws

/-- Store `v` into `I2C1_MSA_R`. -/
def writeMSA (v : Nat) (b : Bus) : Bus :=
  Bus.mk v b.mcsIn b.mdrIn (b.log ++ [Write.msa v])

/-- Store `v` into `I2C1_MDR_R`. -/
def writeMDR (v : Nat) (b : Bus) : Bus :=
  Bus.mk b.msa b.mcsIn b.mdrIn (b.log ++ [Write.mdr v])

/-- Store `v` into `I2C1_MCS_R` (the control side). -/
def writeMCS (v : Nat) (b : Bus) : Bus :=
  Bus.mk b.msa b.mcsIn b.mdrIn (b.log ++ [Write.mcs v])

/-- One volatile read of `I2C1_MCS_R` (the status side). -/
def readMCS (b : Bus) : Option (Nat × Bus) :=
  match b.mcsIn with
  | [] => none
  | s :: rest => some (s, Bus.mk b.msa rest b.mdrIn b.log)

/-- One volatile read of `I2C1_MDR_R`. -/
def readMDR (b : Bus) : Option (Nat × Bus) :=
  match b.mdrIn with
  | [] => none
  | d :: rest => some (d, Bus.mk b.msa b.mcsIn rest b.log)

/-- The loop `while ((I2C1_MCS_R&I2C_MCS_BUSY) != 0){}` on the status script:
reads until one read has BUSY clear, and gives what is left of the script. -/
def waitIdle : List Nat → Option (List Nat)
  | [] => none
  | s :: rest => if s &&& I2C_MCS_BUSY ≠ 0 then waitIdle rest else some rest

/-- The busy-wait of `Send_Byte` and `Read_Byte` on the bus. -/
def busyWait (b : Bus) : Option Bus :=
  match waitIdle b.mcsIn with
  | none => none
  | some rest => some (Bus.mk b.msa rest b.mdrIn b.log)

/-! ## I2C.c -/

/-- What a call of a `uint8_t` function hands back: the operand of the
`return` statement it executed, or nothing when control reached the closing
brace without a `return`. -/
inductive RetVal where
  | value (v : Nat)
  | noReturn
deriving DecidableEq, Repr

/-- The function `void RW(uint8_t bit)`. -/
def RW (bit : Nat) (b : Bus) : Bus :=
  if bit = 1 then writeMSA (b.msa ||| (1 <<< 0)) b
  else if bit = 0 then writeMSA (b.msa &&& 0xFFFFFFFE) b
  else b

/-- The function `void Set_Slave_Addr(uint8_t addr)`. -/
def Set_Slave_Addr (addr : Nat) (b : Bus) : Bus :=
  writeMSA (b.msa ||| (addr <<< 1)) b

/-- The function `uint8_t Send_Byte(uint8_t data, uint8_t conditions)`. -/
def Send_Byte (data conditions : Nat) (b : Bus) : Option (RetVal × Bus) :=
  let b := writeMDR (data &&& 0xFF) b
  let b := writeMCS (conditions &&& 0x1F) b
  match busyWait b with
  | none => none
  | some b =>
    match readMCS b with
    | none => none
    | some (s, b) =>
      if s &&& I2C_MCS_ERROR ≠ 0 then
        match readMCS b with
        | none => none
        | some (r, b) =>
          let b := writeMCS (r ||| I2C_MCS_STOP) b
          match readMCS b with
          | none => none
          | some (v, b) =>
            some (RetVal.value
              ((v &&& (I2C_MCS_ADRACK ||| I2C_MCS_DATACK ||| I2C_MCS_ERROR)) % 256), b)
      else some (RetVal.noReturn, b)

/-- The function `uint8_t Read_Byte(uint8_t *data, uint8_t conditions)`; `data` is the
content of `*data` at the call, the second component of the result its
content at the return. -/
def Read_Byte (data conditions : Nat) (b : Bus) : Option ((RetVal × Nat) × Bus) :=
  let b := writeMCS (conditions &&& 0x1F) b
  match busyWait b with
  | none => none
  | some b =>
    match readMCS b with
    | none => none
    | some (s, b) =>
      if s &&& I2C_MCS_ERROR ≠ 0 then
        match readMCS b with
        | none => none
        | some (r, b) =>
          let b := writeMCS (r ||| I2C_MCS_STOP) b
          match readMCS b with
          | none => none
          | some (v, b) => some ((RetVal.value ((v &&& I2C_MCS_ERROR) % 256), data), b)
      else
        match readMDR b with
        | none => none
        | some (d, b) => some ((RetVal.noReturn, d &&& 0xFF), b)

/-! ## TempSensor.c: the register transactions -/

/-- The function `void Sensor_Config(uint16_t config)`. -/
def Sensor_Config (config : Nat) (b : Bus) : Option Bus :=
  let b := RW 0 b
  match Send_Byte CONFIG_R (I2C_MCS_RUN ||| I2C_MCS_START) b with
  | none => none
  | some (_, b) =>
    match Send_Byte (((config &&& 0xFF00) >>> 8) % 256) I2C_MCS_RUN b with
    | none => none
    | some (_, b) =>
      match Send_Byte ((config &&& 0x00FF) % 256) (I2C_MCS_RUN ||| I2C_MCS_STOP) b with
      | none => none
      | some (_, b) => some b

/-- The function `void Lower_Temp_Boundary(uint16_t temp)`. -/
def Lower_Temp_Boundary (temp : Nat) (b : Bus) : Option Bus :=
  let temp := (temp <<< 4) % 65536
  let b := RW 0 b
  match Send_Byte T_LOWER_R (I2C_MCS_RUN ||| I2C_MCS_START) b with
  | none => none
  | some (_, b) =>
    match Send_Byte (((temp &&& 0xFF00) >>> 8) % 256) I2C_MCS_RUN b with
    | none => none
    | some (_, b) =>
      match Send_Byte ((temp &&& 0x00FF) % 256) (I2C_MCS_RUN ||| I2C_MCS_STOP) b with
      | none => none
      | some (_, b) => some b

/-- The function `uint16_t Read_Register(uint8_t regAddr)`.  The locals `upperByte` and
`lowerByte` are declared without an initialiser: `upper0` and `lower0` are
the contents they happen to have. -/
def Read_Register (regAddr upper0 lower0 : Nat) (b : Bus) : Option (Nat × Bus) :=
  let regVal := 0
  let b := RW 0 b
  match Send_Byte regAddr (I2C_MCS_RUN ||| I2C_MCS_START) b with
  | none => none
  | some (_, b) =>
    let b := RW 1 b
    match Read_Byte upper0 (I2C_MCS_ACK ||| I2C_MCS_START ||| I2C_MCS_RUN) b with
    | none => none
    | some ((_, upperByte), b) =>
      match Read_Byte lower0 (I2C_MCS_RUN ||| I2C_MCS_STOP) b with
      | none => none
      | some ((_, lowerByte), b) =>
        let regVal := (regVal ||| ((upperByte <<< 8) ||| lowerByte)) % 65536
        some (regVal, b)

/-! ## Binary floating point

`Calculate_Temp` computes in `float` and `double`.  A value is a signed
integer mantissa over a power of two; every operation gives the exact result
rounded to the precision of its type (24 significant bits for `float`, 53
for `double`), to nearest with ties to even.  The exponent range is not
modelled: the magnitudes met in `Calculate_Temp` lie between 2^-4 and 2^9.
-/

/-- The binary floating-point value `man / 2 ^ scale`. -/
structure Fp where
  man : Int
  scale : Nat
deriving DecidableEq, Repr

/-- Number of binary digits of `n`, halving at most `fuel` times. -/
def bitLenAux : Nat → Nat → Nat
  | 0, _ => 0
  | fuel + 1, n => if n = 0 then 0 else bitLenAux fuel (n / 2) + 1

/-- Number of binary digits of `n`. -/
def bitLen (n : Nat) : Nat := bitLenAux n n

/-- Drop the low `sh` bits of `m`, rounding to nearest, ties to even; the
result is a multiple of `2 ^ sh`. -/
def roundShift (sh m : Nat) : Nat :=
  let q := m / 2 ^ sh
  let r := m % 2 ^ sh
  if 2 * r < 2 ^ sh ∨ (2 * r = 2 ^ sh ∧ q % 2 = 0) then q * 2 ^ sh else (q + 1) * 2 ^ sh

/-- Round `m` to `p` significant bits. -/
def roundNat (p m : Nat) : Nat := roundShift (bitLen m - p) m

/-- Round to `p` significant bits. -/
def Fp.round (p : Nat) (x : Fp) : Fp :=
  Fp.mk (if x.man < 0 then -((roundNat p x.man.natAbs : Nat) : Int)
         else ((roundNat p x.man.natAbs : Nat) : Int)) x.scale

/-- Conversion of an integer to a floating type of precision `p`. -/
def Fp.ofInt (p : Nat) (n : Int) : Fp := Fp.round p (Fp.mk n 0)

/-- Floating-point addition in precision `p`. -/
def Fp.add (p : Nat) (x y : Fp) : Fp :=
  Fp.round p (Fp.mk (x.man * ((2 ^ y.scale : Nat) : Int) + y.man * ((2 ^ x.scale : Nat) : Int))
    (x.scale + y.scale))

/-- Floating-point subtraction in precision `p`. -/
def Fp.sub (p : Nat) (x y : Fp) : Fp :=
  Fp.round p (Fp.mk (x.man * ((2 ^ y.scale : Nat) : Int) - y.man * ((2 ^ x.scale : Nat) : Int))
    (x.scale + y.scale))

/-- Floating-point multiplication in precision `p`. -/
def Fp.mul (p : Nat) (x y : Fp) : Fp :=
  Fp.round p (Fp.mk (x.man * y.man) (x.scale + y.scale))

/-- Floating-point division in precision `p` by a non-zero `y`: the quotient
of the magnitudes is taken to `p + 3` bits or more, with a sticky bit for
what is left, and then rounded. -/
def Fp.div (p : Nat) (x y : Fp) : Fp :=
  let den := y.man.natAbs * 2 ^ x.scale
  let k := p + 2 + bitLen den
  let num := x.man.natAbs * 2 ^ y.scale * 2 ^ k
  let q := 2 * (num / den) + (if num % den = 0 then 0 else 1)
  Fp.round p (Fp.mk (if (decide (x.man < 0)) != (decide (y.man < 0)) then -((q : Nat) : Int)
                     else ((q : Nat) : Int)) (k + 1))

/-- Conversion to `int32_t`: truncation toward zero. -/
def Fp.toInt (x : Fp) : Int := Int.tdiv x.man ((2 ^ x.scale : Nat) : Int)

/-! ## TempSensor.c: the temperature decode -/

/-- The expression `(int32_t)((tempC*(9.0/5)) + 32)`: `tempC` is promoted to
`double` (exactly), the rest is `double` arithmetic. -/
def toFahrenheit (tempC : Fp) : Int :=
  Fp.toInt (Fp.add 53 (Fp.mul 53 tempC (Fp.div 53 (Fp.ofInt 53 9) (Fp.ofInt 53 5)))
    (Fp.ofInt 53 32))

/-- The `float` expression `(*upperByte)*16 + ((float)(*lowerByte)) / 16`. -/
def magnitude (upperByte lowerByte : Nat) : Fp :=
  Fp.add 24 (Fp.ofInt 24 ((upperByte * 16 : Nat) : Int))
    (Fp.div 24 (Fp.ofInt 24 (lowerByte : Int)) (Fp.ofInt 24 16))

/-- What `Calculate_Temp` leaves in `*upperByte` and `*temperature`
(`*lowerByte` is only read). -/
structure TempOut where
  upperByte : Nat
  temperature : Int
deriving DecidableEq, Repr

/-- The function
`void Calculate_Temp(uint8_t *upperByte, uint8_t *lowerByte, int32_t *temperature)`.
The three flag tests have empty bodies.  The `else` has no braces, so the
assignment of line 143 runs on both paths. -/
def Calculate_Temp (upperByte lowerByte : Nat) : TempOut :=
  let upperByte := upperByte &&& 0x1F
  if upperByte &&& 0x10 = 0x10 then
    let upperByte := upperByte &&& 0x0F
    let tempC := Fp.sub 24 (Fp.ofInt 24 256) (magnitude upperByte lowerByte)
    let _temperature := toFahrenheit tempC
    let temperature := toFahrenheit tempC
    TempOut.mk upperByte temperature
  else
    let tempC := magnitude upperByte lowerByte
    let temperature := toFahrenheit tempC
    TempOut.mk upperByte temperature

/-- The Celsius value `Calculate_Temp` works with, in sixteenths of a degree:
the twelve magnitude bits when the sign bit is clear, 4096 minus them when
it is set. -/
def sixteenths (upperByte lowerByte : Nat) : Nat :=
  if (upperByte &&& 0x1F) &&& 0x10 = 0x10 then
    4096 - (((upperByte &&& 0x1F) &&& 0x0F) * 256 + lowerByte)
  else (upperByte &&& 0x1F) * 256 + lowerByte

/-- The Celsius value of the spec's piecewise decode, as an exact rational:
the flag bits are cleared; with the sign bit set it is cleared too and
`tempC = 256 - (upper*16 + lower/16)`, else `tempC = upper*16 + lower/16`. -/
def tempC_spec (upperByte lowerByte : Nat) : ℚ :=
  if (upperByte &&& 0x1F) &&& 0x10 = 0x10 then
    256 - ((((upperByte &&& 0x1F) &&& 0x0F : Nat) : ℚ) * 16 + (lowerByte : ℚ) / 16)
  else (((upperByte &&& 0x1F : Nat) : ℚ) * 16 + (lowerByte : ℚ) / 16)

/-! ## Simulated bus answers -/

/-- The answer of the simulated bus to one byte transfer: the status values
the reads of `I2C1_MCS_R` made by one call of `Send_Byte` or `Read_Byte`
deliver. -/
structure Resp where
  /-- Statuses seen while the controller is busy. -/
  busy : List Nat
  /-- Status that ends the busy-wait. -/
  idle : Nat
  /-- Status read by the error check after the busy-wait. -/
  status : Nat
  /-- Status read by `I2C1_MCS_R |= I2C_MCS_STOP` (error path only). -/
  stop : Nat
  /-- Status read by the `return` statement (error path only). -/
  code : Nat
deriving DecidableEq, Repr

/-- The error check after the busy-wait finds the ERROR flag set. -/
def Resp.failed (r : Resp) : Bool :=
  decide (r.status &&& I2C_MCS_ERROR ≠ 0)

/-- The busy statuses have BUSY set and the status ending the wait has not. -/
def Resp.WF (r : Resp) : Prop :=
  (∀ s ∈ r.busy, s &&& I2C_MCS_BUSY ≠ 0) ∧ r.idle &&& I2C_MCS_BUSY = 0

/-- The status reads of one call, in order. -/
def Resp.reads (r : Resp) : List Nat :=
  r.busy ++ r.idle :: r.status :: (if r.failed then [r.stop, r.code] else [])

/-- The forced STOP written on the error path of one call. -/
def Resp.forced (r : Resp) : List Write :=
  if r.failed then [Write.mcs (r.stop ||| I2C_MCS_STOP)] else []

/-- The answer of a bus that is idle at once and reports `s` on every read. -/
def Resp.steady (s : Nat) : Resp := Resp.mk [] s s s s

/-- Number of control writes that assert STOP. -/
def stopCount (ws : List Nat) : Nat :=
  (ws.filter (fun w => decide (w &&& I2C_MCS_STOP ≠ 0))).length

/-- Number of failing transfers among the answers. -/
def failures (rs : List Resp) : Nat :=
  (rs.filter Resp.failed).length

/-- The control writes of a transaction of three byte transfers with the
conditions `c1`, `c2`, `c3`: each conditions write, followed by the forced
STOP of that transfer when it fails. -/
def transactionWrites (c1 c2 c3 : Nat) (r1 r2 r3 : Resp) : List Nat :=
  [c1] ++ mcsWrites r1.forced ++ [c2] ++ mcsWrites r2.forced ++ [c3] ++ mcsWrites r3.forced

/-- The values written to `I2C1_MDR_R`, in order. -/
def mdrWrites : List Write → List Nat
  | [] => []
  | Write.mdr v :: ws => v :: mdrWrites ws
  | _ :: ws => mdrWrites ws

/-! ## I2C.c: initialisation -/

/-- Modelled from the spec: the header `tm4c123gh6pm.h` is not among the
sources; bit 4 of `I2C1_MCR_R`, master function enable (the comment of step
6 of `I2C1_Init` gives the value 0x0000.0010). -/
def I2C_MCR_MFE : Nat := 0x10

/-- Modelled from the spec: the header `tm4c123gh6pm.h` is not among the
sources; bit 0 of `SYSCTL_RCGCGPIO_R`, the clock gate of GPIO port A. -/
def SYSCTL_RCGCGPIO_R0 : Nat := 0x01

/-- The registers `I2C1_Init` touches; each is ordinary read/write memory. -/
structure InitRegs where
  /-- Content of `SYSCTL_RCGCI2C_R`. -/
  rcgci2c : Nat
  /-- Content of `SYSCTL_RCGCGPIO_R`. -/
  rcgcgpio : Nat
  /-- Content of `GPIO_PORTA_AFSEL_R`. -/
  afsel : Nat
  /-- Content of `GPIO_PORTA_DEN_R`. -/
  den : Nat
  /-- Content of `GPIO_PORTA_ODR_R`. -/
  odr : Nat
  /-- Content of `GPIO_PORTA_PCTL_R`. -/
  pctl : Nat
  /-- Content of `I2C1_MCR_R`. -/
  mcr : Nat
  /-- Content of `I2C1_MTPR_R`. -/
  mtpr : Nat
deriving DecidableEq, Repr

/-- The function `void I2C1_Init(void)`: eight statements `R |= constant`,
one for each register, in the order of the fields. -/
def I2C1_Init (s : InitRegs) : InitRegs :=
  InitRegs.mk
    (s.rcgci2c ||| (1 <<< 1))
    (s.rcgcgpio ||| SYSCTL_RCGCGPIO_R0)
    (s.afsel ||| ((1 <<< 6) ||| (1 <<< 7)))
    (s.den ||| ((1 <<< 6) ||| (1 <<< 7)))
    (s.odr ||| (1 <<< 7))
    (s.pctl ||| ((3 <<< 24) ||| (3 <<< 28)))
    (s.mcr ||| I2C_MCR_MFE)
    (s.mtpr ||| (7 <<< 0))

/-! ## Variants and inverses of the temperature decode -/

/-- The decode the spec calls intended: as `Calculate_Temp`, with the
Fahrenheit assignment of line 143 inside the `else` branch, so that each
branch assigns `*temperature` exactly once (line 140 when the sign bit is
set, line 143 when it is clear). -/
def Calculate_Temp_intended (upperByte lowerByte : Nat) : TempOut :=
  let upperByte := upperByte &&& 0x1F
  if upperByte &&& 0x10 = 0x10 then
    let upperByte := upperByte &&& 0x0F
    let tempC := Fp.sub 24 (Fp.ofInt 24 256) (magnitude upperByte lowerByte)
    let temperature := toFahrenheit tempC
    TempOut.mk upperByte temperature
  else
    let tempC := magnitude upperByte lowerByte
    let temperature := toFahrenheit tempC
    TempOut.mk upperByte temperature

/-- An inverse encoder for the round trip of the spec (the program has
none): whole degrees Celsius `t` go to the register bytes `(upper, lower)`
of the value `t * 16`, sixteenths of a degree, most-significant byte
first. -/
def encode_ambient_temperature (t : Nat) : Nat × Nat :=
  ((t * 16) / 256 % 256, (t * 16) % 256)

/-- The whole degrees Celsius whose truncated Fahrenheit value is `f`: the
least `t` with `32 + 9 * t / 5 = f`, namely `5 * (f - 32) / 9` rounded up. -/
def celsius_of_fahrenheit (f : Int) : Int :=
  (5 * (f - 32) + 8) / 9

end MCP9808

namespace MCP9808

/-! ## Rounding -/

theorem bitLenAux_le (fuel : Nat) : ∀ m n : Nat, m < 2 ^ n → bitLenAux fuel m ≤ n := by
  induction fuel with
  | zero => intro m n _; simp [bitLenAux]
  | succ fuel ih =>
    intro m n h
    unfold bitLenAux
    split
    · exact Nat.zero_le _
    · rename_i hm
      cases n with
      | zero => simp at h; exact absurd h hm
      | succ n =>
        have h2 : m / 2 < 2 ^ n := by
          rw [Nat.pow_succ] at h
          omega
        exact Nat.succ_le_succ (ih _ _ h2)

theorem bitLen_le (m n : Nat) (h : m < 2 ^ n) : bitLen m ≤ n :=
  bitLenAux_le m m n h

theorem lt_two_pow_bitLenAux (fuel : Nat) : ∀ m : Nat, m ≤ fuel → m < 2 ^ bitLenAux fuel m := by
  induction fuel with
  | zero => intro m h; simp [bitLenAux]; omega
  | succ fuel ih =>
    intro m h
    unfold bitLenAux
    split
    · rename_i hm; rw [hm]; exact Nat.two_pow_pos _
    · have h2 := ih (m / 2) (by omega)
      rw [Nat.pow_succ]
      omega

/-- The binary digits counted by `bitLen` hold `m`: with the bound
`bitLen_le` this makes `bitLen m` the exact length. -/
theorem lt_two_pow_bitLen (m : Nat) : m < 2 ^ bitLen m :=
  lt_two_pow_bitLenAux m m (Nat.le_refl m)

theorem roundShift_of_dvd (sh m : Nat) (h : 2 ^ sh ∣ m) : roundShift sh m = m := by
  have hr : m % 2 ^ sh = 0 := Nat.mod_eq_zero_of_dvd h
  have hpos : 0 < 2 ^ sh := Nat.two_pow_pos sh
  simp only [roundShift, hr, Nat.mul_zero]
  rw [if_pos (Or.inl hpos)]
  exact Nat.div_mul_cancel h

theorem roundShift_ge (sh m L : Nat) (hd : 2 ^ sh ∣ L) (hL : L ≤ m) : L ≤ roundShift sh m := by
  obtain ⟨a, rfl⟩ := hd
  have hpos : 0 < 2 ^ sh := Nat.two_pow_pos sh
  have hq : a ≤ m / 2 ^ sh := (Nat.le_div_iff_mul_le hpos).2 (by rw [Nat.mul_comm]; exact hL)
  have h1 : 2 ^ sh * a ≤ m / 2 ^ sh * 2 ^ sh := by
    rw [Nat.mul_comm]; exact Nat.mul_le_mul_right _ hq
  have h2 : m / 2 ^ sh * 2 ^ sh ≤ (m / 2 ^ sh + 1) * 2 ^ sh :=
    Nat.mul_le_mul_right _ (Nat.le_succ _)
  unfold roundShift
  simp only []
  split
  · exact h1
  · exact Nat.le_trans h1 h2

theorem roundShift_le (sh m U : Nat) (hd : 2 ^ sh ∣ U) (hU : m ≤ U) : roundShift sh m ≤ U := by
  obtain ⟨b, rfl⟩ := hd
  have hpos : 0 < 2 ^ sh := Nat.two_pow_pos sh
  have hdm : 2 ^ sh * (m / 2 ^ sh) + m % 2 ^ sh = m := Nat.div_add_mod m (2 ^ sh)
  have h1 : m / 2 ^ sh * 2 ^ sh ≤ 2 ^ sh * b := by
    rw [Nat.mul_comm]; exact Nat.le_trans (by omega) hU
  unfold roundShift
  simp only []
  split
  · exact h1
  · rename_i hc
    have hr : 0 < m % 2 ^ sh := by
      rcases Nat.eq_zero_or_pos (m % 2 ^ sh) with h0 | h0
      · exact absurd (Or.inl (by rw [h0]; exact hpos)) hc
      · exact h0
    have hlt : 2 ^ sh * (m / 2 ^ sh) < 2 ^ sh * b := by omega
    have hq : m / 2 ^ sh + 1 ≤ b := Nat.lt_of_mul_lt_mul_left hlt
    rw [Nat.mul_comm]
    exact Nat.mul_le_mul_left _ hq

theorem roundNat_exact (p j m : Nat) (hd : 2 ^ j ∣ m) (hlt : m < 2 ^ (p + j)) :
    roundNat p m = m := by
  have hsh : bitLen m - p ≤ j := by
    have := bitLen_le m (p + j) hlt
    omega
  exact roundShift_of_dvd _ _ (Nat.dvd_trans (Nat.pow_dvd_pow 2 hsh) hd)

theorem roundNat_ge (p j m L : Nat) (hlt : m < 2 ^ (p + j)) (hd : 2 ^ j ∣ L) (hL : L ≤ m) :
    L ≤ roundNat p m := by
  have hsh : bitLen m - p ≤ j := by
    have := bitLen_le m (p + j) hlt
    omega
  exact roundShift_ge _ _ _ (Nat.dvd_trans (Nat.pow_dvd_pow 2 hsh) hd) hL

theorem roundNat_le (p j m U : Nat) (hlt : m < 2 ^ (p + j)) (hd : 2 ^ j ∣ U) (hU : m ≤ U) :
    roundNat p m ≤ U := by
  have hsh : bitLen m - p ≤ j := by
    have := bitLen_le m (p + j) hlt
    omega
  exact roundShift_le _ _ _ (Nat.dvd_trans (Nat.pow_dvd_pow 2 hsh) hd) hU

theorem Fp.round_natCast (p n s : Nat) :
    Fp.round p (Fp.mk (n : Int) s) = Fp.mk ((roundNat p n : Nat) : Int) s := by
  have h : ¬ ((n : Int) < 0) := by omega
  simp [Fp.round, h]

/-! ## The byte transfers on a scripted bus -/

theorem waitIdle_append (pre : List Nat) (p : Nat) (rest : List Nat)
    (hpre : ∀ s ∈ pre, s &&& I2C_MCS_BUSY ≠ 0) (hp : p &&& I2C_MCS_BUSY = 0) :
    waitIdle (pre ++ p :: rest) = some rest := by
  induction pre with
  | nil => simp [waitIdle, hp]
  | cons s pre ih =>
    have hs : s &&& I2C_MCS_BUSY ≠ 0 := hpre s (List.mem_cons_self _ _)
    have ht : ∀ t ∈ pre, t &&& I2C_MCS_BUSY ≠ 0 :=
      fun t h => hpre t (List.mem_cons_of_mem _ h)
    simp [waitIdle, hs, ih ht]

theorem Send_Byte_resp (data conditions : Nat) (r : Resp) (hr : r.WF)
    (msa : Nat) (rest mdrIn : List Nat) (log : List Write) :
    Send_Byte data conditions (Bus.mk msa (r.reads ++ rest) mdrIn log) =
      some (if r.failed then
              RetVal.value ((r.code &&& (I2C_MCS_ADRACK ||| I2C_MCS_DATACK ||| I2C_MCS_ERROR)) % 256)
            else RetVal.noReturn,
        Bus.mk msa rest mdrIn
          (log ++ [Write.mdr (data &&& 0xFF), Write.mcs (conditions &&& 0x1F)] ++ r.forced)) := by
  obtain ⟨hb, hi⟩ := hr
  by_cases hf : r.status &&& I2C_MCS_ERROR = 0
  · simp [Send_Byte, busyWait, writeMDR, writeMCS, readMCS, Resp.reads, Resp.failed, Resp.forced,
      List.append_assoc, waitIdle_append _ _ _ hb hi, hf]
  · simp [Send_Byte, busyWait, writeMDR, writeMCS, readMCS, Resp.reads, Resp.failed, Resp.forced,
      List.append_assoc, waitIdle_append _ _ _ hb hi, hf]

theorem Read_Byte_resp (data conditions : Nat) (r : Resp) (hr : r.WF)
    (msa : Nat) (rest : List Nat) (d : Nat) (ds : List Nat) (log : List Write) :
    Read_Byte data conditions (Bus.mk msa (r.reads ++ rest) (d :: ds) log) =
      some ((if r.failed then RetVal.value ((r.code &&& I2C_MCS_ERROR) % 256) else RetVal.noReturn,
             if r.failed then data else d &&& 0xFF),
        Bus.mk msa rest (if r.failed then d :: ds else ds)
          (log ++ [Write.mcs (conditions &&& 0x1F)] ++ r.forced)) := by
  obtain ⟨hb, hi⟩ := hr
  by_cases hf : r.status &&& I2C_MCS_ERROR = 0
  · simp [Read_Byte, busyWait, writeMCS, readMCS, readMDR, Resp.reads, Resp.failed, Resp.forced,
      List.append_assoc, waitIdle_append _ _ _ hb hi, hf]
  · simp [Read_Byte, busyWait, writeMCS, readMCS, readMDR, Resp.reads, Resp.failed, Resp.forced,
      List.append_assoc, waitIdle_append _ _ _ hb hi, hf]

theorem waitIdle_some (l rest : List Nat) (h : waitIdle l = some rest) :
    ∃ pre p, l = pre ++ p :: rest ∧ (∀ s ∈ pre, s &&& I2C_MCS_BUSY ≠ 0)
      ∧ p &&& I2C_MCS_BUSY = 0 := by
  induction l with
  | nil => simp [waitIdle] at h
  | cons s l ih =>
    by_cases hs : s &&& I2C_MCS_BUSY = 0
    · have hr : l = rest := by simpa [waitIdle, hs] using h
      exact ⟨[], s, by simp [hr], by simp, hs⟩
    · have hw : waitIdle l = some rest := by simpa [waitIdle, hs] using h
      obtain ⟨pre, p, hl, hpre, hp⟩ := ih hw
      refine ⟨s :: pre, p, by simp [hl], ?_, hp⟩
      intro t ht
      rcases List.mem_cons.1 ht with rfl | ht
      · exact hs
      · exact hpre t ht

/-- Every call of `Send_Byte` that returns has consumed the status reads of
one answer: the answers range over all that a bus can do. -/
theorem Send_Byte_script (data conditions : Nat) (b : Bus) (ret : RetVal) (c : Bus)
    (h : Send_Byte data conditions b = some (ret, c)) :
    ∃ r : Resp, r.WF ∧ b.mcsIn = r.reads ++ c.mcsIn := by
  simp only [Send_Byte, busyWait, writeMDR, writeMCS, readMCS] at h
  cases hw : waitIdle b.mcsIn with
  | none => simp [hw] at h
  | some l1 =>
    obtain ⟨pre, p, hl, hpre, hp⟩ := waitIdle_some _ _ hw
    simp only [hw] at h
    cases l1 with
    | nil => simp at h
    | cons s l2 =>
      by_cases hs : s &&& I2C_MCS_ERROR = 0
      · simp only [hs, ne_eq, not_true_eq_false, if_false, Option.some.injEq, Prod.mk.injEq] at h
        refine ⟨Resp.mk pre p s 0 0, ⟨hpre, hp⟩, ?_⟩
        rw [← h.2]
        simp [Resp.reads, Resp.failed, hs, hl]
      · cases l2 with
        | nil => simp [hs] at h
        | cons x l3 =>
          cases l3 with
          | nil => simp [hs] at h
          | cons y l4 =>
            simp only [hs, ne_eq, not_false_eq_true, if_true, Option.some.injEq,
              Prod.mk.injEq] at h
            refine ⟨Resp.mk pre p s x y, ⟨hpre, hp⟩, ?_⟩
            rw [← h.2]
            simp [Resp.reads, Resp.failed, hs, hl]

/-- Every call of `Read_Byte` that returns has consumed the status reads of
one answer. -/
theorem Read_Byte_script (data conditions : Nat) (b : Bus) (ret : RetVal × Nat) (c : Bus)
    (h : Read_Byte data conditions b = some (ret, c)) :
    ∃ r : Resp, r.WF ∧ b.mcsIn = r.reads ++ c.mcsIn := by
  simp only [Read_Byte, busyWait, writeMCS, readMCS, readMDR] at h
  cases hw : waitIdle b.mcsIn with
  | none => simp [hw] at h
  | some l1 =>
    obtain ⟨pre, p, hl, hpre, hp⟩ := waitIdle_some _ _ hw
    simp only [hw] at h
    cases l1 with
    | nil => simp at h
    | cons s l2 =>
      by_cases hs : s &&& I2C_MCS_ERROR = 0
      · simp only [hs, ne_eq, not_true_eq_false, if_false] at h
        cases hd : b.mdrIn with
        | nil => simp [hd] at h
        | cons d ds =>
          simp only [hd, Option.some.injEq, Prod.mk.injEq] at h
          refine ⟨Resp.mk pre p s 0 0, ⟨hpre, hp⟩, ?_⟩
          rw [← h.2]
          simp [Resp.reads, Resp.failed, hs, hl]
      · cases l2 with
        | nil => simp [hs] at h
        | cons x l3 =>
          cases l3 with
          | nil => simp [hs] at h
          | cons y l4 =>
            simp only [hs, ne_eq, not_false_eq_true, if_true, Option.some.injEq,
              Prod.mk.injEq] at h
            refine ⟨Resp.mk pre p s x y, ⟨hpre, hp⟩, ?_⟩
            rw [← h.2]
            simp [Resp.reads, Resp.failed, hs, hl]

theorem Read_Byte_failed (data conditions : Nat) (r : Resp) (hr : r.WF) (hf : r.failed = true)
    (msa : Nat) (rest mdrIn : List Nat) (log : List Write) :
    Read_Byte data conditions (Bus.mk msa (r.reads ++ rest) mdrIn log) =
      some ((RetVal.value ((r.code &&& I2C_MCS_ERROR) % 256), data),
        Bus.mk msa rest mdrIn
          (log ++ [Write.mcs (conditions &&& 0x1F)] ++ [Write.mcs (r.stop ||| I2C_MCS_STOP)])) := by
  obtain ⟨hb, hi⟩ := hr
  have hs : r.status &&& I2C_MCS_ERROR ≠ 0 := by simpa [Resp.failed] using hf
  simp [Read_Byte, busyWait, writeMCS, readMCS, Resp.reads, Resp.failed,
    List.append_assoc, waitIdle_append _ _ _ hb hi, hs]

/-! ## The arithmetic of `Calculate_Temp` -/

theorem Fp.ofInt_natCast (p n : Nat) (h : n < 2 ^ p) :
    Fp.ofInt p (n : Int) = Fp.mk (n : Int) 0 := by
  rw [Fp.ofInt, Fp.round_natCast, roundNat_exact p 0 n (by simp) (by simpa using h)]

theorem div_sixteen (l : Nat) (h : l < 256) :
    Fp.div 24 (Fp.mk (l : Int) 0) (Fp.mk 16 0) = Fp.mk ((l * 2 ^ 28 : Nat) : Int) 32 := by
  have hb : bitLen 16 = 5 := by decide
  have hq : 2 * (l * 2 ^ 31 / 16) + (if l * 2 ^ 31 % 16 = 0 then 0 else 1) = l * 2 ^ 28 := by
    have h0 : l * 2 ^ 31 % 16 = 0 := by omega
    rw [if_pos h0]
    omega
  have hneg : ¬ ((l : Int) < 0) := by omega
  have hd : Int.natAbs 16 * 2 ^ 0 = 16 := by decide
  have hl : (l : Int).natAbs = l := Int.natAbs_ofNat l
  have hs : (decide ((l : Int) < 0) != decide ((16 : Int) < 0)) = false := by simp [hneg]
  simp only [Fp.div, hd, hl, hb, hs, Nat.pow_zero, Nat.mul_one, Bool.false_eq_true, if_false]
  show Fp.round 24 (Fp.mk ((2 * (l * 2 ^ 31 / 16) + (if l * 2 ^ 31 % 16 = 0 then 0 else 1) : Nat) : Int)
    32) = _
  rw [hq, Fp.round_natCast,
    roundNat_exact 24 28 _ (Nat.dvd_mul_left _ _) (by norm_num; omega)]

theorem magnitude_eq (m l : Nat) (hm : m < 256) (hl : l < 256) :
    magnitude m l = Fp.mk (((m * 256 + l) * 2 ^ 28 : Nat) : Int) 32 := by
  have h16 : Fp.ofInt 24 16 = Fp.mk 16 0 := by decide
  have hman : (((m * 16 : Nat) : Int) * ((2 ^ 32 : Nat) : Int)
      + ((l * 2 ^ 28 : Nat) : Int) * ((2 ^ 0 : Nat) : Int)) = (((m * 256 + l) * 2 ^ 28 : Nat) : Int) := by
    push_cast; ring
  rw [magnitude, Fp.ofInt_natCast 24 (m * 16) (by norm_num; omega),
    Fp.ofInt_natCast 24 l (by norm_num; omega), h16, div_sixteen l hl]
  simp only [Fp.add]
  rw [hman, Fp.round_natCast,
    roundNat_exact 24 28 _ (Nat.dvd_mul_left _ _) (by norm_num; omega)]

theorem toFahrenheit_eq (k : Nat) (hk : k ≤ 4096) :
    toFahrenheit (Fp.mk ((k * 2 ^ 28 : Nat) : Int) 32) = ((32 + 9 * k / 80 : Nat) : Int) := by
  have hc : Fp.div 53 (Fp.ofInt 53 9) (Fp.ofInt 53 5) = Fp.mk 1037629354146162304 59 := by decide
  have h32 : Fp.ofInt 53 32 = Fp.mk 32 0 := by decide
  have hm1 : ((k * 2 ^ 28 : Nat) : Int) * 1037629354146162304
      = ((k * 2 ^ 28 * 1037629354146162304 : Nat) : Int) := by push_cast; ring
  -- the product, rounded, stays between the two integers around 9k/80
  have hlt1 : k * 2 ^ 28 * 1037629354146162304 < 2 ^ (53 + 47) := by norm_num; omega
  have hlo1 : 9 * k / 80 * 2 ^ 91 ≤ roundNat 53 (k * 2 ^ 28 * 1037629354146162304) :=
    roundNat_ge 53 47 _ _ hlt1
      (Nat.dvd_trans (Nat.pow_dvd_pow 2 (by decide : 47 ≤ 91)) (Nat.dvd_mul_left _ _))
      (by norm_num; omega)
  have hhi1 : roundNat 53 (k * 2 ^ 28 * 1037629354146162304) ≤ (9 * k / 80 + 1) * 2 ^ 91 - 2 ^ 83 :=
    roundNat_le 53 47 _ _ hlt1
      (Nat.dvd_sub' (Nat.dvd_trans (Nat.pow_dvd_pow 2 (by decide : 47 ≤ 91)) (Nat.dvd_mul_left _ _))
        (Nat.pow_dvd_pow 2 (by decide : 47 ≤ 83)))
      (by norm_num; omega)
  have hM1 : ∃ M1, M1 = roundNat 53 (k * 2 ^ 28 * 1037629354146162304) := ⟨_, rfl⟩
  obtain ⟨M1, hM1⟩ := hM1
  rw [← hM1] at hlo1 hhi1
  have hm2 : (M1 : Int) * ((2 ^ 0 : Nat) : Int) + 32 * ((2 ^ 91 : Nat) : Int)
      = ((M1 + 32 * 2 ^ 91 : Nat) : Int) := by push_cast; ring
  have hlt2 : M1 + 32 * 2 ^ 91 < 2 ^ (53 + 47) := by norm_num at hhi1 ⊢; omega
  have hlo2 : (9 * k / 80 + 32) * 2 ^ 91 ≤ roundNat 53 (M1 + 32 * 2 ^ 91) :=
    roundNat_ge 53 47 _ _ hlt2
      (Nat.dvd_trans (Nat.pow_dvd_pow 2 (by decide : 47 ≤ 91)) (Nat.dvd_mul_left _ _))
      (by norm_num at hlo1 ⊢; omega)
  have hhi2 : roundNat 53 (M1 + 32 * 2 ^ 91) ≤ (9 * k / 80 + 33) * 2 ^ 91 - 2 ^ 83 :=
    roundNat_le 53 47 _ _ hlt2
      (Nat.dvd_sub' (Nat.dvd_trans (Nat.pow_dvd_pow 2 (by decide : 47 ≤ 91)) (Nat.dvd_mul_left _ _))
        (Nat.pow_dvd_pow 2 (by decide : 47 ≤ 83)))
      (by norm_num at hhi1 ⊢; omega)
  have hM2 : ∃ M2, M2 = roundNat 53 (M1 + 32 * 2 ^ 91) := ⟨_, rfl⟩
  obtain ⟨M2, hM2⟩ := hM2
  rw [← hM2] at hlo2 hhi2
  have hdiv : M2 / 2 ^ 91 = 32 + 9 * k / 80 := by norm_num at hlo2 hhi2 ⊢; omega
  simp only [toFahrenheit, hc, h32, Fp.mul, Fp.add, Fp.toInt, hm1, Fp.round_natCast, ← hM1,
    Nat.reduceAdd, hm2, ← hM2]
  rw [Int.tdiv_eq_ediv (Int.ofNat_nonneg _) (Int.ofNat_nonneg _), ← hdiv]
  exact (Int.ofNat_ediv M2 (2 ^ 91)).symm

theorem sub_magnitude (k : Nat) (hk : k ≤ 4096) :
    Fp.sub 24 (Fp.ofInt 24 256) (Fp.mk ((k * 2 ^ 28 : Nat) : Int) 32)
      = Fp.mk (((4096 - k) * 2 ^ 28 : Nat) : Int) 32 := by
  have h256 : Fp.ofInt 24 256 = Fp.mk 256 0 := by decide
  have hman : (256 : Int) * ((2 ^ 32 : Nat) : Int) - ((k * 2 ^ 28 : Nat) : Int) * ((2 ^ 0 : Nat) : Int)
      = (((4096 - k) * 2 ^ 28 : Nat) : Int) := by
    norm_num
    omega
  rw [h256]
  simp only [Fp.sub]
  rw [hman, Fp.round_natCast,
    roundNat_exact 24 28 _ (Nat.dvd_mul_left _ _) (by norm_num; omega)]

theorem low_when_sign_clear : ∀ m < 32, m &&& 0x10 ≠ 0x10 → m < 16 := by decide

theorem Calculate_Temp_temperature (u l : Nat) (hl : l < 256) :
    (Calculate_Temp u l).temperature = ((32 + 9 * sixteenths u l / 80 : Nat) : Int) := by
  have hm : u &&& 0x1F < 32 := Nat.and_lt_two_pow u (by decide : 0x1F < 2 ^ 5)
  by_cases hs : (u &&& 0x1F) &&& 0x10 = 0x10
  · have hn : (u &&& 0x1F) &&& 0x0F < 16 := Nat.and_lt_two_pow _ (by decide : 0x0F < 2 ^ 4)
    simp only [Calculate_Temp, sixteenths, hs, if_true]
    rw [magnitude_eq _ l (by omega) hl, sub_magnitude _ (by omega),
      toFahrenheit_eq _ (by omega)]
  · have hn : u &&& 0x1F < 16 := low_when_sign_clear _ hm hs
    simp only [Calculate_Temp, sixteenths, hs, if_false]
    rw [magnitude_eq _ l (by omega) hl, toFahrenheit_eq _ (by omega)]

theorem Calculate_Temp_upperByte (u l : Nat) :
    (Calculate_Temp u l).upperByte =
      if (u &&& 0x1F) &&& 0x10 = 0x10 then (u &&& 0x1F) &&& 0x0F else u &&& 0x1F := by
  unfold Calculate_Temp
  simp only []
  split <;> rfl

theorem tempC_spec_eq (u l : Nat) (hl : l < 256) :
    tempC_spec u l = ((sixteenths u l : Nat) : ℚ) / 16 := by
  have hm : u &&& 0x1F < 32 := Nat.and_lt_two_pow u (by decide : 0x1F < 2 ^ 5)
  by_cases hs : (u &&& 0x1F) &&& 0x10 = 0x10
  · have hn : (u &&& 0x1F) &&& 0x0F < 16 := Nat.and_lt_two_pow _ (by decide : 0x0F < 2 ^ 4)
    simp only [tempC_spec, sixteenths, hs, if_true]
    rw [Nat.cast_sub (by omega)]
    push_cast
    ring
  · simp only [tempC_spec, sixteenths, hs, if_false]
    push_cast
    ring

/-! ## The register transactions on a scripted bus -/

theorem Read_Register_resp (regAddr upper0 lower0 msa : Nat) (r1 r2 r3 : Resp)
    (h1 : r1.WF) (h2 : r2.WF) (h3 : r3.WF) (rest : List Nat) (d e : Nat) (ds : List Nat)
    (log : List Write) :
    Read_Register regAddr upper0 lower0
        (Bus.mk msa (r1.reads ++ (r2.reads ++ (r3.reads ++ rest))) (d :: e :: ds) log) =
      some ((0 ||| (((if r2.failed then upper0 else d &&& 0xFF) <<< 8) |||
              (if r3.failed then lower0 else (if r2.failed then d else e) &&& 0xFF))) % 65536,
        Bus.mk ((msa &&& 0xFFFFFFFE) ||| (1 <<< 0)) rest
          (if r2.failed then (if r3.failed then d :: e :: ds else e :: ds)
           else (if r3.failed then e :: ds else ds))
          (log ++ [Write.msa (msa &&& 0xFFFFFFFE)]
            ++ [Write.mdr (regAddr &&& 0xFF), Write.mcs ((I2C_MCS_RUN ||| I2C_MCS_START) &&& 0x1F)]
            ++ r1.forced
            ++ [Write.msa ((msa &&& 0xFFFFFFFE) ||| (1 <<< 0))]
            ++ [Write.mcs ((I2C_MCS_ACK ||| I2C_MCS_START ||| I2C_MCS_RUN) &&& 0x1F)]
            ++ r2.forced
            ++ [Write.mcs ((I2C_MCS_RUN ||| I2C_MCS_STOP) &&& 0x1F)]
            ++ r3.forced)) := by
  have hRW0 : ∀ b : Bus, RW 0 b = writeMSA (b.msa &&& 0xFFFFFFFE) b := fun b => by simp [RW]
  have hRW1 : ∀ b : Bus, RW 1 b = writeMSA (b.msa ||| (1 <<< 0)) b := fun b => by simp [RW]
  simp only [Read_Register, hRW0, hRW1, writeMSA]
  rw [Send_Byte_resp _ _ r1 h1]
  simp only []
  rw [Read_Byte_resp _ _ r2 h2]
  cases hf2 : r2.failed <;> simp only [Bool.false_eq_true, if_false, if_true] <;>
    rw [Read_Byte_resp _ _ r3 h3]

theorem three_sends_resp (a c1 x c2 y c3 msa : Nat) (r1 r2 r3 : Resp)
    (h1 : r1.WF) (h2 : r2.WF) (h3 : r3.WF) (rest mdrIn : List Nat) (log : List Write) :
    (match Send_Byte a c1
        (RW 0 (Bus.mk msa (r1.reads ++ (r2.reads ++ (r3.reads ++ rest))) mdrIn log)) with
      | none => none
      | some (_, b) =>
        match Send_Byte x c2 b with
        | none => none
        | some (_, b) =>
          match Send_Byte y c3 b with
          | none => none
          | some (_, b) => some b) =
      some (Bus.mk (msa &&& 0xFFFFFFFE) rest mdrIn
        (log ++ [Write.msa (msa &&& 0xFFFFFFFE)]
          ++ [Write.mdr (a &&& 0xFF), Write.mcs (c1 &&& 0x1F)] ++ r1.forced
          ++ [Write.mdr (x &&& 0xFF), Write.mcs (c2 &&& 0x1F)] ++ r2.forced
          ++ [Write.mdr (y &&& 0xFF), Write.mcs (c3 &&& 0x1F)] ++ r3.forced)) := by
  have hRW0 : ∀ b : Bus, RW 0 b = writeMSA (b.msa &&& 0xFFFFFFFE) b := fun b => by simp [RW]
  simp only [hRW0, writeMSA]
  rw [Send_Byte_resp _ _ r1 h1]
  simp only []
  rw [Send_Byte_resp _ _ r2 h2]
  simp only []
  rw [Send_Byte_resp _ _ r3 h3]

theorem Sensor_Config_resp (config msa : Nat) (r1 r2 r3 : Resp)
    (h1 : r1.WF) (h2 : r2.WF) (h3 : r3.WF) (rest mdrIn : List Nat) (log : List Write) :
    Sensor_Config config (Bus.mk msa (r1.reads ++ (r2.reads ++ (r3.reads ++ rest))) mdrIn log) =
      some (Bus.mk (msa &&& 0xFFFFFFFE) rest mdrIn
        (log ++ [Write.msa (msa &&& 0xFFFFFFFE)]
          ++ [Write.mdr (CONFIG_R &&& 0xFF), Write.mcs ((I2C_MCS_RUN ||| I2C_MCS_START) &&& 0x1F)]
          ++ r1.forced
          ++ [Write.mdr ((((config &&& 0xFF00) >>> 8) % 256) &&& 0xFF),
              Write.mcs (I2C_MCS_RUN &&& 0x1F)]
          ++ r2.forced
          ++ [Write.mdr (((config &&& 0x00FF) % 256) &&& 0xFF),
              Write.mcs ((I2C_MCS_RUN ||| I2C_MCS_STOP) &&& 0x1F)]
          ++ r3.forced)) :=
  three_sends_resp _ _ _ _ _ _ msa r1 r2 r3 h1 h2 h3 rest mdrIn log

theorem Lower_Temp_Boundary_resp (temp msa : Nat) (r1 r2 r3 : Resp)
    (h1 : r1.WF) (h2 : r2.WF) (h3 : r3.WF) (rest mdrIn : List Nat) (log : List Write) :
    Lower_Temp_Boundary temp
        (Bus.mk msa (r1.reads ++ (r2.reads ++ (r3.reads ++ rest))) mdrIn log) =
      some (Bus.mk (msa &&& 0xFFFFFFFE) rest mdrIn
        (log ++ [Write.msa (msa &&& 0xFFFFFFFE)]
          ++ [Write.mdr (T_LOWER_R &&& 0xFF), Write.mcs ((I2C_MCS_RUN ||| I2C_MCS_START) &&& 0x1F)]
          ++ r1.forced
          ++ [Write.mdr ((((((temp <<< 4) % 65536) &&& 0xFF00) >>> 8) % 256) &&& 0xFF),
              Write.mcs (I2C_MCS_RUN &&& 0x1F)]
          ++ r2.forced
          ++ [Write.mdr ((((((temp <<< 4) % 65536) &&& 0x00FF)) % 256) &&& 0xFF),
              Write.mcs ((I2C_MCS_RUN ||| I2C_MCS_STOP) &&& 0x1F)]
          ++ r3.forced)) :=
  three_sends_resp _ _ _ _ _ _ msa r1 r2 r3 h1 h2 h3 rest mdrIn log

/-! ## Bit-level facts -/

theorem or_stop_and_stop (x : Nat) : (x ||| I2C_MCS_STOP) &&& I2C_MCS_STOP = I2C_MCS_STOP := by
  apply Nat.eq_of_testBit_eq
  intro i
  rw [Nat.testBit_and, Nat.testBit_or]
  cases x.testBit i <;> cases I2C_MCS_STOP.testBit i <;> rfl

theorem error_bit_of_mask (x : Nat) : (x &&& 0x0E) &&& 0x02 = x &&& 0x02 := by
  rw [Nat.and_assoc]
  rfl

theorem mask_ne_zero_of_error (x : Nat) (h : x &&& I2C_MCS_ERROR ≠ 0) :
    x &&& (I2C_MCS_ADRACK ||| I2C_MCS_DATACK ||| I2C_MCS_ERROR) ≠ 0 := by
  intro h0
  apply h
  have h1 : (x &&& 0x0E) &&& 0x02 = x &&& 0x02 := error_bit_of_mask x
  have h2 : x &&& 0x0E = 0 := h0
  rw [h2] at h1
  simpa [I2C_MCS_ERROR] using h1.symm

theorem failed_of_error_datack (r : Resp)
    (h : r.status &&& (I2C_MCS_ERROR ||| I2C_MCS_DATACK)
      = I2C_MCS_ERROR ||| I2C_MCS_DATACK) : r.failed = true := by
  have h1 : (r.status &&& 0x0A) &&& 0x02 = r.status &&& 0x02 := by
    rw [Nat.and_assoc]; rfl
  have h2 : r.status &&& 0x0A = 0x0A := h
  rw [h2] at h1
  have h3 : r.status &&& I2C_MCS_ERROR = 2 := h1.symm
  simp [Resp.failed, h3]

theorem assemble_eq (u l : Nat) (hu : u < 256) (hl : l < 256) :
    (0 ||| ((u <<< 8) ||| l)) % 65536 = u * 256 + l := by
  have h : 2 ^ 8 * u + l = 2 ^ 8 * u ||| l := Nat.mul_add_lt_is_or (by omega) u
  rw [Nat.zero_or, Nat.shiftLeft_eq, Nat.mul_comm u, ← h]
  omega

theorem and_byte_lt (d : Nat) : d &&& 0xFF < 256 :=
  Nat.and_lt_two_pow d (by decide : 0xFF < 2 ^ 8)

theorem and_byte_of_lt (d : Nat) (h : d < 256) : d &&& 0xFF = d := by
  rw [show (0xFF : Nat) = 2 ^ 8 - 1 from rfl, Nat.and_pow_two_sub_one_eq_mod]
  exact Nat.mod_eq_of_lt h

theorem steady_WF (s : Nat) (h : s &&& I2C_MCS_BUSY = 0) : (Resp.steady s).WF := by
  constructor
  · intro t ht
    simp [Resp.steady] at ht
  · exact h

theorem mcsWrites_append (a b : List Write) : mcsWrites (a ++ b) = mcsWrites a ++ mcsWrites b := by
  induction a with
  | nil => rfl
  | cons w a ih => cases w <;> simp [mcsWrites, ih]

theorem or_one_div_two (x : Nat) : (x ||| (1 <<< 0)) / 2 = x / 2 := by
  rw [Nat.or_div_two]
  exact Nat.or_zero _

theorem or_one_testBit_zero (x : Nat) : (x ||| (1 <<< 0)).testBit 0 = true := by
  rw [Nat.testBit_or]
  have h : (1 <<< 0).testBit 0 = true := by decide
  rw [h, Bool.or_true]

theorem and_mask_div_two (x : Nat) (h : x < 2 ^ 32) : (x &&& 0xFFFFFFFE) / 2 = x / 2 := by
  rw [Nat.and_div_two, show (0xFFFFFFFE : Nat) / 2 = 2 ^ 31 - 1 from rfl,
    Nat.and_pow_two_sub_one_eq_mod]
  exact Nat.mod_eq_of_lt (by omega)

theorem and_mask_testBit_zero (x : Nat) : (x &&& 0xFFFFFFFE).testBit 0 = false := by
  rw [Nat.testBit_and]
  have h : (0xFFFFFFFE : Nat).testBit 0 = false := by decide
  rw [h, Bool.and_false]

theorem testBit_of_div_two_eq (x y : Nat) (h : x / 2 = y / 2) (i : Nat) (hi : 0 < i) :
    x.testBit i = y.testBit i := by
  cases i with
  | zero => exact absurd hi (Nat.lt_irrefl 0)
  | succ j => rw [Nat.testBit_succ, Nat.testBit_succ, h]

theorem stopCount_append (a b : List Nat) : stopCount (a ++ b) = stopCount a + stopCount b := by
  simp [stopCount]

theorem stopCount_forced (r : Resp) :
    stopCount (mcsWrites r.forced) = if r.failed then 1 else 0 := by
  cases hf : r.failed
  · simp [Resp.forced, hf, mcsWrites, stopCount]
  · have h : (r.stop ||| I2C_MCS_STOP) &&& I2C_MCS_STOP ≠ 0 := by
      rw [or_stop_and_stop]; decide
    simp [Resp.forced, hf, mcsWrites, stopCount, h]

theorem failures_three (r1 r2 r3 : Resp) :
    failures [r1, r2, r3] = (if r1.failed then 1 else 0) + (if r2.failed then 1 else 0)
      + (if r3.failed then 1 else 0) := by
  cases h1 : r1.failed <;> cases h2 : r2.failed <;> cases h3 : r3.failed <;>
    simp [failures, List.filter, h1, h2, h3]

theorem stopCount_transaction (c2 : Nat) (hc : c2 &&& I2C_MCS_STOP = 0) (r1 r2 r3 : Resp) :
    stopCount (transactionWrites 0x03 c2 0x05 r1 r2 r3) = 1 + failures [r1, r2, r3] := by
  have h3 : stopCount [0x03] = 0 := by decide
  have h5 : stopCount [0x05] = 1 := by decide
  have hc2 : stopCount [c2] = 0 := by simp [stopCount, hc]
  simp only [transactionWrites, stopCount_append, stopCount_forced, failures_three, h3, h5, hc2]
  omega

theorem TempOut_eq (o : TempOut) (a : Nat) (t : Int) (h1 : o.upperByte = a)
    (h2 : o.temperature = t) : o = TempOut.mk a t := by
  cases o with
  | mk ub tp =>
    simp only at h1 h2
    rw [h1, h2]

/-! ## Claims -/

/-- C1, as stated, fails.  Register 0x05 is read on a bus whose first
`Read_Byte` finds ERROR and DATACK set (status 0x0A): that `Read_Byte` hands
the code 0x02 to `Read_Register`, and `Read_Register` still returns an
assembled 16-bit value, 0xAB34, made of the stale content 0xAB of `upperByte`
and the byte 0x34 read afterwards. -/
theorem Read_Register_datack_unreported :
    (Read_Byte 0xAB 0x0B (Bus.mk 0x31 [0x0A, 0x0A, 0x0A, 0x0A] [0x34] [])).map
        (fun x => x.1) = some (RetVal.value 0x02, 0xAB)
    ∧ (Read_Register 0x05 0xAB 0xCD
        (Bus.mk 0x30 [0x00, 0x00, 0x0A, 0x0A, 0x0A, 0x0A, 0x00, 0x00] [0x34] [])).map
        Prod.fst = some 0xAB34 := by
  decide

/-- C1, amended.  When the status read after the busy-wait of a `Read_Byte`
has ERROR and DATACK set, `Read_Register` reports no error: it returns the
16-bit value `upper * 256 + lower` in which the byte of the failing
`Read_Byte` is the content its local variable had before the call, and the
byte of the other `Read_Byte` is the low 8 bits of the data register (or
again the old content, if that transfer fails too). -/
theorem Read_Register_value_despite_datack (regAddr upper0 lower0 msa : Nat)
    (r1 r2 r3 : Resp) (h1 : r1.WF) (h2 : r2.WF) (h3 : r3.WF)
    (hu : upper0 < 256) (hl : lower0 < 256)
    (rest : List Nat) (d e : Nat) (ds : List Nat) (log : List Write) :
    (r2.status &&& (I2C_MCS_ERROR ||| I2C_MCS_DATACK) = I2C_MCS_ERROR ||| I2C_MCS_DATACK →
      (Read_Register regAddr upper0 lower0
        (Bus.mk msa (r1.reads ++ (r2.reads ++ (r3.reads ++ rest))) (d :: e :: ds) log)).map
        Prod.fst = some (upper0 * 256 + (if r3.failed then lower0 else d &&& 0xFF)))
    ∧ (r3.status &&& (I2C_MCS_ERROR ||| I2C_MCS_DATACK) = I2C_MCS_ERROR ||| I2C_MCS_DATACK →
      (Read_Register regAddr upper0 lower0
        (Bus.mk msa (r1.reads ++ (r2.reads ++ (r3.reads ++ rest))) (d :: e :: ds) log)).map
        Prod.fst = some ((if r2.failed then upper0 else d &&& 0xFF) * 256 + lower0)) := by
  rw [Read_Register_resp regAddr upper0 lower0 msa r1 r2 r3 h1 h2 h3]
  constructor
  · intro h
    have hf := failed_of_error_datack r2 h
    simp only [Option.map_some', hf, if_true]
    rw [assemble_eq _ _ hu (by split; exact hl; exact and_byte_lt d)]
  · intro h
    have hf := failed_of_error_datack r3 h
    simp only [Option.map_some', hf, if_true]
    rw [assemble_eq _ _ (by split; exact hu; exact and_byte_lt d) hl]

/-- Witness of `Read_Register_value_despite_datack`: the first `Read_Byte`
fails with status 0x0A on an otherwise idle bus. -/
theorem Read_Register_value_despite_datack_witness :
    (Read_Register 0x05 0xAB 0xCD
        (Bus.mk 0x30 ((Resp.steady 0).reads ++ ((Resp.steady 0x0A).reads
          ++ ((Resp.steady 0).reads ++ []))) [0x34, 0x56] [])).map
        Prod.fst = some (0xAB * 256 + (if (Resp.steady 0).failed then 0xCD else 0x34 &&& 0xFF)) :=
  (Read_Register_value_despite_datack 0x05 0xAB 0xCD 0x30
    (Resp.steady 0) (Resp.steady 0x0A) (Resp.steady 0)
    (steady_WF 0 (by decide)) (steady_WF 0x0A (by decide)) (steady_WF 0 (by decide))
    (by decide) (by decide) [] 0x34 0x56 [] []).1 (by decide)

/-- C2 fails on the code.  On the raw value 0x1EC0 (sign bit set, magnitude
of -20 degrees Celsius) the branch commented `TA < 0` clears the sign bit,
sets `tempC` to `256 - 236 = 20`, a positive value, and `Calculate_Temp`
stores 68, the Fahrenheit value of +20 degrees Celsius, where the claim has
-4. -/
theorem Calculate_Temp_minus20_stores_68 :
    Calculate_Temp 0x1E 0xC0 = TempOut.mk 0x0E 68
    ∧ (Calculate_Temp 0x1E 0xC0).temperature ≠ -4 := by
  have h := Calculate_Temp_temperature 0x1E 0xC0 (by decide)
  have hu : (Calculate_Temp 0x1E 0xC0).upperByte = 0x0E := by
    rw [Calculate_Temp_upperByte]; decide
  have ht : (Calculate_Temp 0x1E 0xC0).temperature = 68 := by rw [h]; decide
  refine ⟨TempOut_eq _ _ _ hu ht, ?_⟩
  rw [ht]
  decide

/-- C4.  On a bus that reports no error, whatever the register address,
`Read_Register` returns `u * 256 + l` for the bytes `u` and `l` the data
register delivers to the first and to the second `Read_Byte`: the high byte
of the result is `u` and the low byte is `l`. -/
theorem Read_Register_assembles (regAddr upper0 lower0 msa u l : Nat)
    (r1 r2 r3 : Resp) (h1 : r1.WF) (h2 : r2.WF) (h3 : r3.WF)
    (_e1 : r1.failed = false) (e2 : r2.failed = false) (e3 : r3.failed = false)
    (hu : u < 256) (hl : l < 256)
    (rest ds : List Nat) (log : List Write) :
    (Read_Register regAddr upper0 lower0
        (Bus.mk msa (r1.reads ++ (r2.reads ++ (r3.reads ++ rest))) (u :: l :: ds) log)).map
        Prod.fst = some (u * 256 + l)
    ∧ (u * 256 + l) / 256 = u ∧ (u * 256 + l) % 256 = l ∧ u * 256 + l < 65536 := by
  have hu' : u &&& 0xFF = u := and_byte_of_lt u hu
  have hl' : l &&& 0xFF = l := and_byte_of_lt l hl
  refine ⟨?_, by omega, by omega, by omega⟩
  rw [Read_Register_resp regAddr upper0 lower0 msa r1 r2 r3 h1 h2 h3]
  simp only [Option.map_some', e2, e3, Bool.false_eq_true, if_false, hu', hl']
  rw [assemble_eq u l hu hl]

/-- Witness of `Read_Register_assembles`: register 0x05 on an idle bus that
delivers the bytes 0xC1 and 0x90. -/
theorem Read_Register_assembles_witness :
    (Read_Register 0x05 0 0
        (Bus.mk 0x30 ((Resp.steady 0).reads ++ ((Resp.steady 0).reads
          ++ ((Resp.steady 0).reads ++ []))) [0xC1, 0x90] [])).map
        Prod.fst = some (0xC1 * 256 + 0x90) :=
  (Read_Register_assembles 0x05 0 0 0x30 0xC1 0x90
    (Resp.steady 0) (Resp.steady 0) (Resp.steady 0)
    (steady_WF 0 (by decide)) (steady_WF 0 (by decide)) (steady_WF 0 (by decide))
    (by decide) (by decide) (by decide) (by decide) (by decide) [] [] []).1

/-- C5.  When the error check after the busy-wait finds the ERROR flag
set, `Send_Byte` and `Read_Byte` both return, and each makes exactly two
writes to `I2C1_MCS_R`: the conditions, and last a value with the STOP bit
(0x04) set. -/
theorem error_path_asserts_stop (data data0 conditions msa : Nat) (r : Resp) (hr : r.WF)
    (hf : r.status &&& I2C_MCS_ERROR ≠ 0) (rest mdrIn : List Nat) (log : List Write) :
    (∃ ret b w, Send_Byte data conditions (Bus.mk msa (r.reads ++ rest) mdrIn log) = some (ret, b)
        ∧ mcsWrites b.log = mcsWrites log ++ [conditions &&& 0x1F, w]
        ∧ w &&& I2C_MCS_STOP = I2C_MCS_STOP)
    ∧ (∃ ret b w, Read_Byte data0 conditions (Bus.mk msa (r.reads ++ rest) mdrIn log) = some (ret, b)
        ∧ mcsWrites b.log = mcsWrites log ++ [conditions &&& 0x1F, w]
        ∧ w &&& I2C_MCS_STOP = I2C_MCS_STOP) := by
  have hfail : r.failed = true := by simp [Resp.failed, hf]
  constructor
  · refine ⟨_, _, r.stop ||| I2C_MCS_STOP, Send_Byte_resp data conditions r hr msa rest mdrIn log,
      ?_, or_stop_and_stop _⟩
    simp [mcsWrites_append, mcsWrites, Resp.forced, hfail]
  · refine ⟨_, _, r.stop ||| I2C_MCS_STOP,
      Read_Byte_failed data0 conditions r hr hfail msa rest mdrIn log, ?_, or_stop_and_stop _⟩
    simp [mcsWrites_append, mcsWrites]

/-- Witness of `error_path_asserts_stop`: an address-not-acknowledged
failure (status 0x06) after two busy polls. -/
theorem error_path_asserts_stop_witness :
    (∃ ret b w, Send_Byte 0x05 0x03
          (Bus.mk 0x30 ((Resp.mk [0x01, 0x41] 0x40 0x06 0x06 0x06).reads ++ []) [] [])
          = some (ret, b)
        ∧ mcsWrites b.log = mcsWrites [] ++ [0x03 &&& 0x1F, w]
        ∧ w &&& I2C_MCS_STOP = I2C_MCS_STOP)
    ∧ (∃ ret b w, Read_Byte 0x00 0x03
          (Bus.mk 0x30 ((Resp.mk [0x01, 0x41] 0x40 0x06 0x06 0x06).reads ++ []) [] [])
          = some (ret, b)
        ∧ mcsWrites b.log = mcsWrites [] ++ [0x03 &&& 0x1F, w]
        ∧ w &&& I2C_MCS_STOP = I2C_MCS_STOP) :=
  error_path_asserts_stop 0x05 0x00 0x03 0x30 (Resp.mk [0x01, 0x41] 0x40 0x06 0x06 0x06)
    ⟨by decide, by decide⟩ (by decide) [] [] []

/-- C6 fails on the code.  `Read_Byte` masks the status with `I2C_MCS_ERROR`
alone: a data-not-acknowledged failure (status 0x0A) and an
address-not-acknowledged failure (status 0x06) both return the code 0x02. -/
theorem Read_Byte_drops_ack_flags :
    (Read_Byte 0x00 0x0B (Bus.mk 0x31 [0x0A, 0x0A, 0x0A, 0x0A] [] [])).map (fun x => x.1.1)
        = some (RetVal.value 0x02)
    ∧ (Read_Byte 0x00 0x0B (Bus.mk 0x31 [0x06, 0x06, 0x06, 0x06] [] [])).map (fun x => x.1.1)
        = some (RetVal.value 0x02)
    ∧ (Send_Byte 0x05 0x03 (Bus.mk 0x30 [0x0A, 0x0A, 0x0A, 0x0A] [] [])).map Prod.fst
        = some (RetVal.value 0x0A) := by
  decide

/-- C7, as stated, fails.  On a bus that is idle at once, shows ERROR
(status 0x02) at the error check and 0x00 at the two later reads,
`Send_Byte` takes the error path and returns the code 0: the `return`
statement reads the status register again. -/
theorem Send_Byte_error_code_zero :
    (Send_Byte 0x05 0x03 (Bus.mk 0x30 [0x00, 0x02, 0x00, 0x00] [] [])).map Prod.fst
      = some (RetVal.value 0) := by
  decide

/-- C7, amended.  When the error check after the busy-wait finds the ERROR
flag set, `Send_Byte` returns the status register, as the `return`
statement reads it, masked to the ADRACK (0x04), DATACK (0x08) and ERROR
(0x02) bits; the code `Send_Byte` returns is not zero when the ERROR flag is
still set at that read. -/
theorem Send_Byte_error_code (data conditions msa : Nat) (r : Resp) (hr : r.WF)
    (hf : r.status &&& I2C_MCS_ERROR ≠ 0) (rest mdrIn : List Nat) (log : List Write) :
    (Send_Byte data conditions (Bus.mk msa (r.reads ++ rest) mdrIn log)).map Prod.fst
        = some (RetVal.value (r.code &&& (I2C_MCS_ADRACK ||| I2C_MCS_DATACK ||| I2C_MCS_ERROR)))
    ∧ (r.code &&& I2C_MCS_ERROR ≠ 0 →
        (Send_Byte data conditions (Bus.mk msa (r.reads ++ rest) mdrIn log)).map Prod.fst
          ≠ some (RetVal.value 0)) := by
  have hfail : r.failed = true := by simp [Resp.failed, hf]
  have hlt : r.code &&& (I2C_MCS_ADRACK ||| I2C_MCS_DATACK ||| I2C_MCS_ERROR) < 256 :=
    Nat.lt_of_le_of_lt Nat.and_le_right (by decide)
  have hret : (Send_Byte data conditions (Bus.mk msa (r.reads ++ rest) mdrIn log)).map Prod.fst
      = some (RetVal.value (r.code &&& (I2C_MCS_ADRACK ||| I2C_MCS_DATACK ||| I2C_MCS_ERROR))) := by
    rw [Send_Byte_resp data conditions r hr]
    simp only [Option.map_some', hfail, if_true, Nat.mod_eq_of_lt hlt]
  refine ⟨hret, ?_⟩
  intro hc h0
  rw [hret] at h0
  exact mask_ne_zero_of_error r.code hc (RetVal.value.inj (Option.some.inj h0))

/-- Witness of `Send_Byte_error_code`: a data-not-acknowledged failure
(status 0x0A) after one busy poll. -/
theorem Send_Byte_error_code_witness :
    (Send_Byte 0x05 0x03
        (Bus.mk 0x30 ((Resp.mk [0x01] 0x0A 0x0A 0x0A 0x0A).reads ++ []) [] [])).map Prod.fst
        = some (RetVal.value (0x0A &&& (I2C_MCS_ADRACK ||| I2C_MCS_DATACK ||| I2C_MCS_ERROR)))
    ∧ (Send_Byte 0x05 0x03
        (Bus.mk 0x30 ((Resp.mk [0x01] 0x0A 0x0A 0x0A 0x0A).reads ++ []) [] [])).map Prod.fst
        ≠ some (RetVal.value 0) :=
  ⟨(Send_Byte_error_code 0x05 0x03 0x30 (Resp.mk [0x01] 0x0A 0x0A 0x0A 0x0A)
      ⟨by decide, by decide⟩ (by decide) [] [] []).1,
   (Send_Byte_error_code 0x05 0x03 0x30 (Resp.mk [0x01] 0x0A 0x0A 0x0A 0x0A)
      ⟨by decide, by decide⟩ (by decide) [] [] []).2 (by decide)⟩

/-- C8.  For every 7-bit address and every 32-bit content of `I2C1_MSA_R`,
after `Set_Slave_Addr(addr)` the calls `RW(1)` and then `RW(0)` leave every
bit of the register other than bit 0 (so bits 7..1) as `Set_Slave_Addr`
left it; bit 0 is 1 after `RW(1)` and 0 after `RW(0)`. -/
theorem RW_changes_only_direction_bit (addr : Nat) (b : Bus) (ha : addr < 128)
    (hm : b.msa < 2 ^ 32) :
    (∀ i, 0 < i →
      (RW 1 (Set_Slave_Addr addr b)).msa.testBit i = (Set_Slave_Addr addr b).msa.testBit i)
    ∧ (RW 1 (Set_Slave_Addr addr b)).msa.testBit 0 = true
    ∧ (∀ i, 0 < i →
      (RW 0 (RW 1 (Set_Slave_Addr addr b))).msa.testBit i = (Set_Slave_Addr addr b).msa.testBit i)
    ∧ (RW 0 (RW 1 (Set_Slave_Addr addr b))).msa.testBit 0 = false := by
  have hRW0 : ∀ c : Bus, (RW 0 c).msa = c.msa &&& 0xFFFFFFFE := fun c => by simp [RW, writeMSA]
  have hRW1 : ∀ c : Bus, (RW 1 c).msa = c.msa ||| (1 <<< 0) := fun c => by simp [RW, writeMSA]
  have hS : (Set_Slave_Addr addr b).msa = b.msa ||| (addr <<< 1) := rfl
  have hlt : (Set_Slave_Addr addr b).msa < 2 ^ 32 := by
    rw [hS]
    exact Nat.or_lt_two_pow hm (by rw [Nat.shiftLeft_eq]; omega)
  have hlt1 : (RW 1 (Set_Slave_Addr addr b)).msa < 2 ^ 32 := by
    rw [hRW1]
    exact Nat.or_lt_two_pow hlt (by decide)
  have hd1 : (RW 1 (Set_Slave_Addr addr b)).msa / 2 = (Set_Slave_Addr addr b).msa / 2 := by
    rw [hRW1, or_one_div_two]
  have hd0 : (RW 0 (RW 1 (Set_Slave_Addr addr b))).msa / 2 = (Set_Slave_Addr addr b).msa / 2 := by
    rw [hRW0, and_mask_div_two _ hlt1, hd1]
  refine ⟨testBit_of_div_two_eq _ _ hd1, ?_, testBit_of_div_two_eq _ _ hd0, ?_⟩
  · rw [hRW1]; exact or_one_testBit_zero _
  · rw [hRW0]; exact and_mask_testBit_zero _

/-- Witness of `RW_changes_only_direction_bit`: the sensor's address 0x18 on
a cleared register. -/
theorem RW_changes_only_direction_bit_witness :
    (RW 1 (Set_Slave_Addr 0x18 (Bus.mk 0 [] [] []))).msa.testBit 0 = true
    ∧ (RW 0 (RW 1 (Set_Slave_Addr 0x18 (Bus.mk 0 [] [] [])))).msa.testBit 0 = false :=
  ⟨(RW_changes_only_direction_bit 0x18 (Bus.mk 0 [] [] []) (by decide) (by decide)).2.1,
   (RW_changes_only_direction_bit 0x18 (Bus.mk 0 [] [] []) (by decide) (by decide)).2.2.2⟩

/-- C9, as stated, fails.  `Read_Register` on a bus whose first byte transfer
fails (address not acknowledged, status 0x06): after the forced STOP (0x06)
the transaction goes on, writes START again (0x0B) and STOP again (0x05), so
its control writes assert STOP twice. -/
theorem Read_Register_two_stops :
    (Read_Register 0x05 0 0
        (Bus.mk 0x30 [0x06, 0x06, 0x06, 0x06, 0x00, 0x00, 0x00, 0x00] [0x12, 0x34] [])).map
        (fun x => mcsWrites x.2.log) = some [0x03, 0x06, 0x0B, 0x05]
    ∧ stopCount [0x03, 0x06, 0x0B, 0x05] = 2 := by
  decide

/-- C9, amended.  On every simulated bus on which the byte transfers
complete, each register transaction (`Read_Register`, `Sensor_Config`,
`Lower_Temp_Boundary`) returns, and its control writes are its three
conditions writes, the first with START and the last with STOP, each
followed by a forced STOP when that byte transfer fails; the transaction
goes on after a failure.  The writes therefore assert STOP once for the
final byte and once more for every failing byte: exactly once when no byte
transfer fails. -/
theorem transaction_stops (regAddr upper0 lower0 config temp msa : Nat) (r1 r2 r3 : Resp)
    (h1 : r1.WF) (h2 : r2.WF) (h3 : r3.WF) (rest : List Nat) (d e : Nat) (ds : List Nat)
    (log : List Write) :
    (Read_Register regAddr upper0 lower0
        (Bus.mk msa (r1.reads ++ (r2.reads ++ (r3.reads ++ rest))) (d :: e :: ds) log)).map
        (fun x => mcsWrites x.2.log) = some (mcsWrites log ++ transactionWrites 0x03 0x0B 0x05 r1 r2 r3)
    ∧ (Sensor_Config config
        (Bus.mk msa (r1.reads ++ (r2.reads ++ (r3.reads ++ rest))) (d :: e :: ds) log)).map
        (fun x => mcsWrites x.log) = some (mcsWrites log ++ transactionWrites 0x03 0x01 0x05 r1 r2 r3)
    ∧ (Lower_Temp_Boundary temp
        (Bus.mk msa (r1.reads ++ (r2.reads ++ (r3.reads ++ rest))) (d :: e :: ds) log)).map
        (fun x => mcsWrites x.log) = some (mcsWrites log ++ transactionWrites 0x03 0x01 0x05 r1 r2 r3)
    ∧ stopCount (transactionWrites 0x03 0x0B 0x05 r1 r2 r3) = 1 + failures [r1, r2, r3]
    ∧ stopCount (transactionWrites 0x03 0x01 0x05 r1 r2 r3) = 1 + failures [r1, r2, r3]
    ∧ (failures [r1, r2, r3] = 0 →
        transactionWrites 0x03 0x0B 0x05 r1 r2 r3 = [0x03, 0x0B, 0x05]
        ∧ transactionWrites 0x03 0x01 0x05 r1 r2 r3 = [0x03, 0x01, 0x05]) := by
  have hc1 : (I2C_MCS_RUN ||| I2C_MCS_START) &&& 0x1F = 0x03 := by decide
  have hc2 : (I2C_MCS_ACK ||| I2C_MCS_START ||| I2C_MCS_RUN) &&& 0x1F = 0x0B := by decide
  have hc3 : (I2C_MCS_RUN ||| I2C_MCS_STOP) &&& 0x1F = 0x05 := by decide
  have hc4 : I2C_MCS_RUN &&& 0x1F = 0x01 := by decide
  refine ⟨?_, ?_, ?_, stopCount_transaction 0x0B (by decide) r1 r2 r3,
    stopCount_transaction 0x01 (by decide) r1 r2 r3, ?_⟩
  · rw [Read_Register_resp regAddr upper0 lower0 msa r1 r2 r3 h1 h2 h3]
    simp [mcsWrites_append, mcsWrites, transactionWrites, hc1, hc2, hc3]
  · rw [Sensor_Config_resp config msa r1 r2 r3 h1 h2 h3]
    simp [mcsWrites_append, mcsWrites, transactionWrites, hc1, hc4, hc3]
  · rw [Lower_Temp_Boundary_resp temp msa r1 r2 r3 h1 h2 h3]
    simp [mcsWrites_append, mcsWrites, transactionWrites, hc1, hc4, hc3]
  · intro h0
    rw [failures_three] at h0
    have f1 : r1.failed = false := by cases h : r1.failed <;> simp [h] at h0 ⊢
    have f2 : r2.failed = false := by cases h : r2.failed <;> simp [h] at h0 ⊢
    have f3 : r3.failed = false := by cases h : r3.failed <;> simp [h] at h0 ⊢
    simp [transactionWrites, Resp.forced, f1, f2, f3, mcsWrites]

/-- Witness of `transaction_stops`: the second byte transfer fails with
status 0x0A, the other two succeed. -/
theorem transaction_stops_witness :
    stopCount (transactionWrites 0x03 0x0B 0x05
      (Resp.steady 0) (Resp.steady 0x0A) (Resp.steady 0))
      = 1 + failures [Resp.steady 0, Resp.steady 0x0A, Resp.steady 0] :=
  (transaction_stops 0x05 0 0 0x1234 25 0x30 (Resp.steady 0) (Resp.steady 0x0A) (Resp.steady 0)
    (steady_WF 0 (by decide)) (steady_WF 0x0A (by decide)) (steady_WF 0 (by decide))
    [] 0x12 0x34 [] []).2.2.2.1

/-- C10 fails on the code.  On an idle bus without error (status 0x00)
`Send_Byte` reaches its closing brace without executing a `return`: the call
hands back no value, where the claim has the code 0. -/
theorem Send_Byte_success_returns_nothing :
    Send_Byte 0x05 0x03 (Bus.mk 0x30 [0x00, 0x00] [] [])
      = some (RetVal.noReturn, Bus.mk 0x30 [] [] [Write.mdr 0x05, Write.mcs 0x03]) := by
  decide

/-! ## Further facts used by the claims on the decode and the transfers -/

theorem flags_clear_of_lt : ∀ x < 32, x &&& 0xE0 = 0 := by decide

theorem and_mask_idem (u : Nat) : (u &&& 0x1F) &&& 0x1F = u &&& 0x1F := by
  rw [Nat.and_assoc, Nat.and_self]

/-- C11.  The three alert-flag bits do not influence the decode: for every
pair of bytes `Calculate_Temp` stores the same temperature (and leaves the
same `*upperByte`) as for `(upperByte & 0x1F, lowerByte)`, and it leaves
`*upperByte` with bits 7..5 cleared. -/
theorem Calculate_Temp_ignores_flags (upperByte lowerByte : Nat) :
    (Calculate_Temp upperByte lowerByte).temperature
        = (Calculate_Temp (upperByte &&& 0x1F) lowerByte).temperature
    ∧ Calculate_Temp upperByte lowerByte = Calculate_Temp (upperByte &&& 0x1F) lowerByte
    ∧ (Calculate_Temp upperByte lowerByte).upperByte &&& 0xE0 = 0 := by
  have h : Calculate_Temp upperByte lowerByte = Calculate_Temp (upperByte &&& 0x1F) lowerByte := by
    simp only [Calculate_Temp, and_mask_idem]
  refine ⟨by rw [h], h, ?_⟩
  have hm : upperByte &&& 0x1F < 32 := Nat.and_lt_two_pow upperByte (by decide : 0x1F < 2 ^ 5)
  rw [Calculate_Temp_upperByte]
  split
  · exact flags_clear_of_lt _
      (Nat.lt_of_lt_of_le (Nat.and_lt_two_pow _ (by decide : 0x0F < 2 ^ 4)) (by decide))
  · exact flags_clear_of_lt _ hm

/-- C12.  On the raw register value 0x0000 (0 degrees Celsius)
`Calculate_Temp` stores 32 in `*temperature`, and leaves `*upperByte` 0. -/
theorem Calculate_Temp_zero : Calculate_Temp 0x00 0x00 = TempOut.mk 0x00 32 := by
  apply TempOut_eq
  · rw [Calculate_Temp_upperByte]; decide
  · rw [Calculate_Temp_temperature 0x00 0x00 (by decide)]; decide

/-- C13.  Whatever the conditions and the content `d0` of the caller's byte:
with the ERROR flag clear at the error check, `Read_Byte` reads the data
register once and stores its low 8 bits in `*data`; with the ERROR flag set
it makes no read of the data register and leaves `*data` equal to `d0`. -/
theorem Read_Byte_data (d0 conditions msa : Nat) (r : Resp) (hr : r.WF)
    (rest : List Nat) (d : Nat) (ds : List Nat) (log : List Write) :
    (r.status &&& I2C_MCS_ERROR = 0 →
      (Read_Byte d0 conditions (Bus.mk msa (r.reads ++ rest) (d :: ds) log)).map
        (fun x => (x.1.2, x.2.mdrIn)) = some (d &&& 0xFF, ds))
    ∧ (r.status &&& I2C_MCS_ERROR ≠ 0 → ∀ mdrIn : List Nat,
      (Read_Byte d0 conditions (Bus.mk msa (r.reads ++ rest) mdrIn log)).map
        (fun x => (x.1.2, x.2.mdrIn)) = some (d0, mdrIn)) := by
  constructor
  · intro h
    have hf : r.failed = false := by simp [Resp.failed, h]
    rw [Read_Byte_resp d0 conditions r hr]
    simp [hf]
  · intro h mdrIn
    have hf : r.failed = true := by simp [Resp.failed, h]
    rw [Read_Byte_failed d0 conditions r hr hf]
    simp

/-- Witness of `Read_Byte_data`: the data register holds 0x1C3 on an idle
bus without error; on a bus with status 0x0A the byte 0x77 is kept. -/
theorem Read_Byte_data_witness :
    (Read_Byte 0x77 0x0B (Bus.mk 0x31 ((Resp.steady 0).reads ++ []) [0x1C3, 0x05] [])).map
        (fun x => (x.1.2, x.2.mdrIn)) = some (0x1C3 &&& 0xFF, [0x05])
    ∧ (Read_Byte 0x77 0x0B (Bus.mk 0x31 ((Resp.steady 0x0A).reads ++ []) [0x1C3, 0x05] [])).map
        (fun x => (x.1.2, x.2.mdrIn)) = some (0x77, [0x1C3, 0x05]) :=
  ⟨(Read_Byte_data 0x77 0x0B 0x31 (Resp.steady 0) (steady_WF 0 (by decide)) [] 0x1C3 [0x05]
      []).1 (by decide),
   (Read_Byte_data 0x77 0x0B 0x31 (Resp.steady 0x0A) (steady_WF 0x0A (by decide)) [] 0x1C3
      [0x05] []).2 (by decide) [0x1C3, 0x05]⟩

theorem and_div_two_pow (a b : Nat) : ∀ n : Nat, (a &&& b) / 2 ^ n = a / 2 ^ n &&& b / 2 ^ n := by
  intro n
  induction n with
  | zero => simp
  | succ n ih =>
    rw [Nat.pow_succ, ← Nat.div_div_eq_div_mul, ← Nat.div_div_eq_div_mul,
      ← Nat.div_div_eq_div_mul, ih, Nat.and_div_two]

theorem high_byte (c : Nat) (h : c < 65536) :
    (((c &&& 0xFF00) >>> 8) % 256) &&& 0xFF = c / 256 := by
  have h1 : (c &&& 0xFF00) >>> 8 = c / 256 := by
    rw [Nat.shiftRight_eq_div_pow, and_div_two_pow, show (0xFF00 : Nat) / 2 ^ 8 = 2 ^ 8 - 1 from rfl,
      Nat.and_pow_two_sub_one_eq_mod]
    exact Nat.mod_eq_of_lt (by omega)
  have h2 : c / 256 < 256 := by omega
  rw [h1, Nat.mod_eq_of_lt h2, and_byte_of_lt _ h2]

theorem low_byte (c : Nat) : ((c &&& 0x00FF) % 256) &&& 0xFF = c % 256 := by
  have h1 : c &&& 0x00FF = c % 256 := by
    rw [show (0x00FF : Nat) = 2 ^ 8 - 1 from rfl, Nat.and_pow_two_sub_one_eq_mod]
  have h2 : c % 256 < 256 := Nat.mod_lt _ (by decide)
  rw [h1, Nat.mod_eq_of_lt h2, and_byte_of_lt _ h2]

theorem forced_of_not_failed (r : Resp) (h : r.failed = false) : r.forced = [] := by
  simp [Resp.forced, h]

/-- C14.  On a bus that reports no error, `Read_Register(r)` returns after
exactly three byte transfers, in this order: with bit 0 of `I2C1_MSA_R`
cleared it sends `r` with the conditions START|RUN; with bit 0 set it
receives a byte with START|RUN|ACK; then it receives a byte with RUN|STOP
(no ACK).  The value written to the control register is each time those
conditions masked with 0x1F, and both bytes come from the data register. -/
theorem Read_Register_transfers (regAddr upper0 lower0 msa : Nat) (r1 r2 r3 : Resp)
    (h1 : r1.WF) (h2 : r2.WF) (h3 : r3.WF)
    (e1 : r1.failed = false) (e2 : r2.failed = false) (e3 : r3.failed = false)
    (hr : regAddr < 256) (rest : List Nat) (d e : Nat) (ds : List Nat) (log : List Write) :
    (Read_Register regAddr upper0 lower0
        (Bus.mk msa (r1.reads ++ (r2.reads ++ (r3.reads ++ rest))) (d :: e :: ds) log)).map
        (fun x => (x.2.log, x.2.mdrIn))
      = some (log ++
          [Write.msa (msa &&& 0xFFFFFFFE),
           Write.mdr regAddr,
           Write.mcs ((I2C_MCS_START ||| I2C_MCS_RUN) &&& 0x1F),
           Write.msa ((msa &&& 0xFFFFFFFE) ||| (1 <<< 0)),
           Write.mcs ((I2C_MCS_START ||| I2C_MCS_RUN ||| I2C_MCS_ACK) &&& 0x1F),
           Write.mcs ((I2C_MCS_RUN ||| I2C_MCS_STOP) &&& 0x1F)], ds)
    ∧ (msa &&& 0xFFFFFFFE).testBit 0 = false
    ∧ ((msa &&& 0xFFFFFFFE) ||| (1 <<< 0)).testBit 0 = true
    ∧ (I2C_MCS_START ||| I2C_MCS_RUN) &&& 0x1F = I2C_MCS_START ||| I2C_MCS_RUN
    ∧ (I2C_MCS_START ||| I2C_MCS_RUN ||| I2C_MCS_ACK) &&& 0x1F
        = I2C_MCS_START ||| I2C_MCS_RUN ||| I2C_MCS_ACK
    ∧ (I2C_MCS_RUN ||| I2C_MCS_STOP) &&& 0x1F = I2C_MCS_RUN ||| I2C_MCS_STOP
    ∧ (I2C_MCS_RUN ||| I2C_MCS_STOP) &&& I2C_MCS_ACK = 0 := by
  have hc1 : (I2C_MCS_RUN ||| I2C_MCS_START) &&& 0x1F = (I2C_MCS_START ||| I2C_MCS_RUN) &&& 0x1F := by
    decide
  have hc2 : (I2C_MCS_ACK ||| I2C_MCS_START ||| I2C_MCS_RUN) &&& 0x1F
      = (I2C_MCS_START ||| I2C_MCS_RUN ||| I2C_MCS_ACK) &&& 0x1F := by decide
  refine ⟨?_, and_mask_testBit_zero msa, or_one_testBit_zero _, by decide, by decide, by decide,
    by decide⟩
  rw [Read_Register_resp regAddr upper0 lower0 msa r1 r2 r3 h1 h2 h3]
  simp only [Option.map_some', e2, e3, forced_of_not_failed r1 e1, forced_of_not_failed r2 e2,
    forced_of_not_failed r3 e3, and_byte_of_lt regAddr hr, hc1, hc2, Bool.false_eq_true, if_false,
    List.append_nil, List.append_assoc, List.cons_append, List.nil_append]

/-- Witness of `Read_Register_transfers`: the ambient-temperature register
0x05 on an idle bus. -/
theorem Read_Register_transfers_witness :
    (Read_Register 0x05 0 0
        (Bus.mk 0x30 ((Resp.steady 0).reads ++ ((Resp.steady 0).reads
          ++ ((Resp.steady 0).reads ++ []))) [0xC1, 0x90] [])).map
        (fun x => (x.2.log, x.2.mdrIn))
      = some ([] ++
          [Write.msa (0x30 &&& 0xFFFFFFFE),
           Write.mdr 0x05,
           Write.mcs ((I2C_MCS_START ||| I2C_MCS_RUN) &&& 0x1F),
           Write.msa ((0x30 &&& 0xFFFFFFFE) ||| (1 <<< 0)),
           Write.mcs ((I2C_MCS_START ||| I2C_MCS_RUN ||| I2C_MCS_ACK) &&& 0x1F),
           Write.mcs ((I2C_MCS_RUN ||| I2C_MCS_STOP) &&& 0x1F)], []) :=
  (Read_Register_transfers 0x05 0 0 0x30 (Resp.steady 0) (Resp.steady 0) (Resp.steady 0)
    (steady_WF 0 (by decide)) (steady_WF 0 (by decide)) (steady_WF 0 (by decide))
    (by decide) (by decide) (by decide) (by decide) [] 0xC1 0x90 [] []).1

/-- C15.  On a bus that reports no error, for every 16-bit `config`,
`Sensor_Config(config)` returns after exactly three sends, all with bit 0 of
`I2C1_MSA_R` cleared, in this order: the register address 0x01 with
START|RUN, the byte `config >> 8` with RUN, the byte `config & 0xFF` with
RUN|STOP; the two data bytes, most-significant first, make up `config`. -/
theorem Sensor_Config_transfers (config msa : Nat) (r1 r2 r3 : Resp)
    (h1 : r1.WF) (h2 : r2.WF) (h3 : r3.WF)
    (e1 : r1.failed = false) (e2 : r2.failed = false) (e3 : r3.failed = false)
    (hc : config < 65536) (rest mdrIn : List Nat) (log : List Write) :
    (Sensor_Config config
        (Bus.mk msa (r1.reads ++ (r2.reads ++ (r3.reads ++ rest))) mdrIn log)).map
        (fun x => (x.log, x.msa))
      = some (log ++
          [Write.msa (msa &&& 0xFFFFFFFE),
           Write.mdr 0x01,
           Write.mcs ((I2C_MCS_START ||| I2C_MCS_RUN) &&& 0x1F),
           Write.mdr (config >>> 8),
           Write.mcs (I2C_MCS_RUN &&& 0x1F),
           Write.mdr (config &&& 0xFF),
           Write.mcs ((I2C_MCS_RUN ||| I2C_MCS_STOP) &&& 0x1F)], msa &&& 0xFFFFFFFE)
    ∧ (msa &&& 0xFFFFFFFE).testBit 0 = false
    ∧ (config >>> 8) * 256 + (config &&& 0xFF) = config
    ∧ config >>> 8 < 256 ∧ config &&& 0xFF < 256 := by
  have hc1 : (I2C_MCS_RUN ||| I2C_MCS_START) &&& 0x1F = (I2C_MCS_START ||| I2C_MCS_RUN) &&& 0x1F := by
    decide
  have hhi : config >>> 8 = config / 256 := by rw [Nat.shiftRight_eq_div_pow]
  have hlo : config &&& 0xFF = config % 256 := by
    rw [show (0xFF : Nat) = 2 ^ 8 - 1 from rfl, Nat.and_pow_two_sub_one_eq_mod]
  have ha : CONFIG_R &&& 0xFF = 0x01 := by decide
  refine ⟨?_, and_mask_testBit_zero msa, by rw [hhi, hlo]; omega, by rw [hhi]; omega,
    by rw [hlo]; omega⟩
  rw [Sensor_Config_resp config msa r1 r2 r3 h1 h2 h3]
  simp only [Option.map_some', forced_of_not_failed r1 e1, forced_of_not_failed r2 e2,
    forced_of_not_failed r3 e3, high_byte config hc, low_byte config, hc1, ha,
    List.append_nil, List.append_assoc, List.cons_append, List.nil_append]
  simp only [hhi, hlo]

/-- Witness of `Sensor_Config_transfers`: the configuration 0x0218 on an
idle bus. -/
theorem Sensor_Config_transfers_witness :
    (Sensor_Config 0x0218
        (Bus.mk 0x30 ((Resp.steady 0).reads ++ ((Resp.steady 0).reads
          ++ ((Resp.steady 0).reads ++ []))) [] [])).map
        (fun x => (x.log, x.msa))
      = some ([] ++
          [Write.msa (0x30 &&& 0xFFFFFFFE),
           Write.mdr 0x01,
           Write.mcs ((I2C_MCS_START ||| I2C_MCS_RUN) &&& 0x1F),
           Write.mdr (0x0218 >>> 8),
           Write.mcs (I2C_MCS_RUN &&& 0x1F),
           Write.mdr (0x0218 &&& 0xFF),
           Write.mcs ((I2C_MCS_RUN ||| I2C_MCS_STOP) &&& 0x1F)], 0x30 &&& 0xFFFFFFFE) :=
  (Sensor_Config_transfers 0x0218 0x30 (Resp.steady 0) (Resp.steady 0) (Resp.steady 0)
    (steady_WF 0 (by decide)) (steady_WF 0 (by decide)) (steady_WF 0 (by decide))
    (by decide) (by decide) (by decide) (by decide) [] [] []).1

set_option maxRecDepth 100000 in
theorem encode_facts : ∀ t < 256,
    sixteenths (encode_ambient_temperature t).1 (encode_ambient_temperature t).2 = 16 * t
    ∧ (encode_ambient_temperature t).1 &&& 0xF0 = 0
    ∧ (encode_ambient_temperature t).2 < 256 := by
  decide

theorem Calculate_Temp_encode (t : Nat) (h : t ≤ 255) :
    (Calculate_Temp (encode_ambient_temperature t).1 (encode_ambient_temperature t).2).temperature
      = ((32 + 9 * t / 5 : Nat) : Int) := by
  obtain ⟨hk, _, hl⟩ := encode_facts t (by omega)
  rw [Calculate_Temp_temperature _ _ hl, hk]
  congr 1
  omega

theorem celsius_of_fahrenheit_eq (t : Nat) :
    celsius_of_fahrenheit ((32 + 9 * t / 5 : Nat) : Int) = (t : Int) := by
  unfold celsius_of_fahrenheit
  omega

/-- C16, as stated, fails.  The raw values 0x0000 and 0x0008 have the flag
bits clear and encode the distinct Celsius values 0.0 and 0.5, both exact
in tenths of a degree, and `Calculate_Temp` stores the same result for both:
no decoder recovers the Celsius value from it. -/
theorem Calculate_Temp_not_injective :
    (Calculate_Temp 0x00 0x00).temperature = (Calculate_Temp 0x00 0x08).temperature
    ∧ tempC_spec 0x00 0x00 = 0 ∧ tempC_spec 0x00 0x08 = 1 / 2
    ∧ tempC_spec 0x00 0x00 ≠ tempC_spec 0x00 0x08
    ∧ (0x00 : Nat) &&& 0xE0 = 0 := by
  have h0 : tempC_spec 0x00 0x00 = 0 := by
    rw [tempC_spec_eq 0x00 0x00 (by decide)]
    have hk : sixteenths 0x00 0x00 = 0 := by decide
    rw [hk]; norm_num
  have h8 : tempC_spec 0x00 0x08 = 1 / 2 := by
    rw [tempC_spec_eq 0x00 0x08 (by decide)]
    have hk : sixteenths 0x00 0x08 = 8 := by decide
    rw [hk]; norm_num
  refine ⟨?_, h0, h8, by rw [h0, h8]; norm_num, by decide⟩
  rw [Calculate_Temp_temperature 0x00 0x00 (by decide),
    Calculate_Temp_temperature 0x00 0x08 (by decide)]
  decide

/-- C16, amended.  For whole degrees Celsius `t` in 0..255 the encoder
`encode_ambient_temperature` gives register bytes with the flag and sign
bits clear, and `t` is recovered from the output of `Calculate_Temp` on
them (by `celsius_of_fahrenheit`); so `Calculate_Temp` maps raw values that
encode distinct whole degrees to distinct results. -/
theorem whole_degree_round_trip (t1 t2 : Nat) (h1 : t1 ≤ 255) (h2 : t2 ≤ 255) :
    (encode_ambient_temperature t1).1 &&& 0xF0 = 0
    ∧ celsius_of_fahrenheit
        (Calculate_Temp (encode_ambient_temperature t1).1
          (encode_ambient_temperature t1).2).temperature = (t1 : Int)
    ∧ ((Calculate_Temp (encode_ambient_temperature t1).1
          (encode_ambient_temperature t1).2).temperature
        = (Calculate_Temp (encode_ambient_temperature t2).1
          (encode_ambient_temperature t2).2).temperature → t1 = t2) := by
  refine ⟨(encode_facts t1 (by omega)).2.1, ?_, ?_⟩
  · rw [Calculate_Temp_encode t1 h1, celsius_of_fahrenheit_eq]
  · intro h
    rw [Calculate_Temp_encode t1 h1, Calculate_Temp_encode t2 h2] at h
    omega

/-- Witness of `whole_degree_round_trip` at 25 and 26 degrees Celsius. -/
theorem whole_degree_round_trip_witness :
    celsius_of_fahrenheit
        (Calculate_Temp (encode_ambient_temperature 25).1
          (encode_ambient_temperature 25).2).temperature = ((25 : Nat) : Int) :=
  (whole_degree_round_trip 25 26 (by decide) (by decide)).2.1

/-- C17.  `I2C1_Init` is idempotent on the registers it touches: calling it
twice leaves every register as one call does.  From a state with `I2C1_MCR_R`
and `I2C1_MTPR_R` zero, one call leaves 7 in the timer-period register and
the master-function-enable bit set. -/
theorem I2C1_Init_idempotent (s : InitRegs) (a b c d e f : Nat) :
    I2C1_Init (I2C1_Init s) = I2C1_Init s
    ∧ (I2C1_Init (InitRegs.mk a b c d e f 0 0)).mtpr = 7
    ∧ (I2C1_Init (InitRegs.mk a b c d e f 0 0)).mcr &&& I2C_MCR_MFE = I2C_MCR_MFE := by
  refine ⟨?_, ?_, ?_⟩
  · simp only [I2C1_Init, Nat.or_assoc, Nat.or_self]
  · simp [I2C1_Init]
  · simp [I2C1_Init, I2C_MCR_MFE]

/-- C18.  The `else` without braces is harmless: for every pair of bytes the
code as written, where the assignment of line 143 also runs after the
sign-set branch, stores the same `*temperature` (and leaves the same
`*upperByte`) as the intended variant that assigns once in each branch. -/
theorem Calculate_Temp_eq_intended (upperByte lowerByte : Nat) :
    (Calculate_Temp upperByte lowerByte).temperature
        = (Calculate_Temp_intended upperByte lowerByte).temperature
    ∧ Calculate_Temp upperByte lowerByte = Calculate_Temp_intended upperByte lowerByte := by
  have h : Calculate_Temp upperByte lowerByte = Calculate_Temp_intended upperByte lowerByte := by
    unfold Calculate_Temp Calculate_Temp_intended
    rfl
  exact ⟨by rw [h], h⟩

theorem sixteenths_le (u l : Nat) (hl : l < 256) : sixteenths u l ≤ 4096 := by
  have hm : u &&& 0x1F < 32 := Nat.and_lt_two_pow u (by decide : 0x1F < 2 ^ 5)
  by_cases hs : (u &&& 0x1F) &&& 0x10 = 0x10
  · simp only [sixteenths, hs, if_true]
    omega
  · have hn : u &&& 0x1F < 16 := low_when_sign_clear _ hm hs
    simp only [sixteenths, hs, if_false]
    omega

/-- C19.  For every pair of bytes the value `Calculate_Temp` stores in
`*temperature` lies in 32..492, both bounds included and both reached,
whether the sign bit is set or not; the Celsius value it works with lies in
0..256. -/
theorem Calculate_Temp_range (upperByte lowerByte : Nat) (hl : lowerByte < 256) :
    32 ≤ (Calculate_Temp upperByte lowerByte).temperature
    ∧ (Calculate_Temp upperByte lowerByte).temperature ≤ 492
    ∧ 0 ≤ tempC_spec upperByte lowerByte ∧ tempC_spec upperByte lowerByte ≤ 256
    ∧ (Calculate_Temp 0x00 0x00).temperature = 32
    ∧ (Calculate_Temp 0x10 0x00).temperature = 492 := by
  have hk := sixteenths_le upperByte lowerByte hl
  have hq : ((sixteenths upperByte lowerByte : Nat) : ℚ) ≤ 4096 := by exact_mod_cast hk
  have hq0 : (0 : ℚ) ≤ ((sixteenths upperByte lowerByte : Nat) : ℚ) := Nat.cast_nonneg _
  rw [Calculate_Temp_temperature upperByte lowerByte hl, tempC_spec_eq upperByte lowerByte hl]
  refine ⟨by omega, by omega, by positivity, by linarith, ?_, ?_⟩
  · rw [Calculate_Temp_temperature 0x00 0x00 (by decide)]; decide
  · rw [Calculate_Temp_temperature 0x10 0x00 (by decide)]; decide

/-- Witness of `Calculate_Temp_range` at the raw value 0x1EC0. -/
theorem Calculate_Temp_range_witness :
    32 ≤ (Calculate_Temp 0x1E 0xC0).temperature
    ∧ (Calculate_Temp 0x1E 0xC0).temperature ≤ 492 :=
  ⟨(Calculate_Temp_range 0x1E 0xC0 (by decide)).1,
   (Calculate_Temp_range 0x1E 0xC0 (by decide)).2.1⟩

theorem mdrWrites_append (a b : List Write) : mdrWrites (a ++ b) = mdrWrites a ++ mdrWrites b := by
  induction a with
  | nil => rfl
  | cons w a ih => cases w <;> simp [mdrWrites, ih]

theorem mdrWrites_forced (r : Resp) : mdrWrites r.forced = [] := by
  cases hf : r.failed <;> simp [Resp.forced, hf, mdrWrites]

set_option maxRecDepth 100000 in
theorem boundary_bytes : ∀ t < 126,
    ((((((t <<< 4) % 65536) &&& 0xFF00) >>> 8) % 256) &&& 0xFF = ((t <<< 4) &&& 0xFF00) >>> 8)
    ∧ ((((((t <<< 4) % 65536) &&& 0x00FF)) % 256) &&& 0xFF = (t <<< 4) &&& 0xFF)
    ∧ (((t <<< 4) &&& 0xFF00) >>> 8) * 16 + ((t <<< 4) &&& 0xFF) / 16 = t
    ∧ (((t <<< 4) &&& 0xFF00) >>> 8) &&& 0xF0 = 0
    ∧ (t <<< 4) &&& 0xFF < 256
    ∧ sixteenths (((t <<< 4) &&& 0xFF00) >>> 8) ((t <<< 4) &&& 0xFF) = 16 * t := by
  decide

/-- C20.  For every whole temperature `t` in 0..125, on every bus on which
the byte transfers complete, `Lower_Temp_Boundary(t)` sends the register
address 0x03 and then the bytes `m = ((t << 4) & 0xFF00) >> 8` and
`l = (t << 4) & 0xFF`.  They satisfy `m * 16 + l / 16 = t` with the flag and
sign bits of `m` clear, and `Calculate_Temp` on `(m, l)` stores
`32 + floor(9 * t / 5)`. -/
theorem Lower_Temp_Boundary_decodes (t msa : Nat) (r1 r2 r3 : Resp)
    (h1 : r1.WF) (h2 : r2.WF) (h3 : r3.WF) (ht : t ≤ 125)
    (rest mdrIn : List Nat) (log : List Write) :
    (Lower_Temp_Boundary t
        (Bus.mk msa (r1.reads ++ (r2.reads ++ (r3.reads ++ rest))) mdrIn log)).map
        (fun x => mdrWrites x.log)
      = some (mdrWrites log ++ [0x03, ((t <<< 4) &&& 0xFF00) >>> 8, (t <<< 4) &&& 0xFF])
    ∧ (((t <<< 4) &&& 0xFF00) >>> 8) * 16 + ((t <<< 4) &&& 0xFF) / 16 = t
    ∧ (((t <<< 4) &&& 0xFF00) >>> 8) &&& 0xF0 = 0
    ∧ (Calculate_Temp (((t <<< 4) &&& 0xFF00) >>> 8) ((t <<< 4) &&& 0xFF)).temperature
        = ((32 + 9 * t / 5 : Nat) : Int) := by
  obtain ⟨hb1, hb2, hsum, hflags, hl, hk⟩ := boundary_bytes t (by omega)
  have ha : T_LOWER_R &&& 0xFF = 0x03 := by decide
  refine ⟨?_, hsum, hflags, ?_⟩
  · rw [Lower_Temp_Boundary_resp t msa r1 r2 r3 h1 h2 h3]
    simp only [Option.map_some', mdrWrites_append, mdrWrites_forced, mdrWrites, hb1, hb2, ha,
      List.append_nil, List.append_assoc, List.cons_append, List.nil_append]
  · rw [Calculate_Temp_temperature _ _ hl, hk]
    congr 1
    omega

/-- Witness of `Lower_Temp_Boundary_decodes`: the boundary 25 degrees
Celsius, sent as the bytes 0x01 and 0x90, decodes to 77. -/
theorem Lower_Temp_Boundary_decodes_witness :
    (Calculate_Temp (((25 <<< 4) &&& 0xFF00) >>> 8) ((25 <<< 4) &&& 0xFF)).temperature
        = ((32 + 9 * 25 / 5 : Nat) : Int) :=
  (Lower_Temp_Boundary_decodes 25 0x30 (Resp.steady 0) (Resp.steady 0) (Resp.steady 0)
    (steady_WF 0 (by decide)) (steady_WF 0 (by decide)) (steady_WF 0 (by decide))
    (by decide) [] [] []).2.2.2

end MCP9808
